import Mathlib

/-! The dispatch and pairing core of whatsapp-ws.

A shallow embedding of the senders and of `validateStringArrayAsStringArray`
(`commandhandler.go`), the pairing callback and terminal loop (`main.go`) and
the WebSocket read loop and HTTP handlers (`ws.go`), with the properties proved
about them.

Conventions of the embedding.

* The remote session client (`cli.Upload`, `cli.SendMessage`), `parseJID`, the
  persistence calls and the library functions `http.DetectContentType`,
  `filepath.Ext` and `strings.ToLower` are collaborators: they are fields of
  `Env`, and the general theorems quantify over them.
* A goroutine fan-out is a list of task program counters advanced by a
  schedule, a list of task indices. Each entry of the schedule lets that task
  run up to its next externally visible action; an entry naming a finished or
  absent task does nothing. All interleavings of the visible actions are
  schedules.
* `Upload` and `SendMessage` receive the index of the calling task, so two
  calls with equal arguments may answer differently.
* A Go `error` is its message, a `String`; `nil` is `none`.
-/

namespace WhatsappWs

/-! ## Data model -/

/-- A byte slice, one `Nat` below 256 per byte. -/
abbrev Bytes := List Nat

/-- The library type `types.JID`. The program only passes it on and prints it,
so it is represented by what `recipient.String()` prints. -/
structure JID where
  str : String
deriving DecidableEq, Repr

/-- The struct `Message` built positionally by the handlers, as in
`Message{resp.ID, recipient.String(), "media", "", true, fileName}`. Its
declaration is outside the three source files, so the fields are named here by
position and use. -/
structure Message where
  ID : String
  JID : String
  Kind : String
  Text : String
  FromMe : Bool
  FileName : String
deriving DecidableEq, Repr

/-- The struct `Command` of `ws.go`. -/
structure Command where
  Cmd : String
  Arguments : List String
  UserID : Int
deriving DecidableEq, Repr

/-- The media kinds passed to `cli.Upload`. -/
inductive MediaType
  | MediaImage
  | MediaDocument
deriving DecidableEq, Repr

/-- The library struct `whatsmeow.UploadResponse`, the fields the program reads. -/
structure UploadResponse where
  URL : String
  DirectPath : String
  MediaKey : Bytes
  FileEncSHA256 : Bytes
  FileSHA256 : Bytes
deriving DecidableEq, Repr

/-- The library struct `whatsmeow.SendResponse`, the fields the program reads. -/
structure SendResponse where
  ID : String
  Timestamp : String
deriving DecidableEq, Repr

/-- The protobuf `waProto.Message`, the three shapes the handlers build. -/
inductive WaMessage
  | Conversation (text : String)
  | ImageMessage (Url Mimetype Caption : String) (FileSha256 : Bytes)
      (FileLength : Nat) (MediaKey FileEncSha256 : Bytes) (DirectPath : String)
  | DocumentMessage (FileName Url DirectPath : String) (MediaKey : Bytes)
      (Mimetype : String) (FileEncSha256 FileSha256 : Bytes) (FileLength : Nat)
      (Title Caption : String)
deriving DecidableEq, Repr

/-- The externally visible actions of the handlers, in the order performed. -/
inductive Effect
  | Upload (task : Nat) (data : Bytes) (kind : MediaType)
  | SendMessage (task : Nat) (recipient : JID) (msg : WaMessage)
  | Infof (line : String)
  | Errorf (line : String)
  | saveImageToDisk (msg : WaMessage) (data : Bytes) (ID : String)
  | saveDocumentToDisk (msg : WaMessage) (data : Bytes) (ID : String)
  | insertMessages (id sender recipient text kind timestamp : String) (fromMe : Bool)
      (fileName : String) (userID : Int)
  | insertLastMessages (id sender recipient text kind timestamp : String) (fromMe : Bool)
      (fileName : String) (userID : Int)
  | WriteJSON (m : Message)
deriving DecidableEq, Repr

/-- The collaborators of the handlers. -/
structure Env where
  /-- The function `parseJID` (declared outside the three source files): the
  parsed identity, or `none` when it reports `ok = false`. -/
  parseJID : String → Option JID
  /-- The call `cli.Upload(ctx, data, kind)` made by task `task`. -/
  Upload : (task : Nat) → Bytes → MediaType → Except String UploadResponse
  /-- The call `cli.SendMessage(ctx, recipient, msg)` made by task `task`. -/
  SendMessage : (task : Nat) → JID → WaMessage → Except String SendResponse
  /-- The function `http.DetectContentType`. -/
  DetectContentType : Bytes → String
  /-- The function `filepath.Ext`. -/
  Ext : String → String
  /-- The function `strings.ToLower`. -/
  ToLower : String → String
  /-- The value `cli.Store.ID.String()`. -/
  storeID : String
  /-- The call `insertMessages(...)`: its error, `none` for `nil`. -/
  insertMessages : (id sender recipient text kind timestamp : String) → (fromMe : Bool) →
    (fileName : String) → (userID : Int) → Option String
  /-- The call `insertLastMessages(...)`: its error, `none` for `nil`. -/
  insertLastMessages : (id sender recipient text kind timestamp : String) → (fromMe : Bool) →
    (fileName : String) → (userID : Int) → Option String
  /-- Whether the global `wsConn` is non-nil. -/
  wsConn : Bool

/-! ## Message builders (`commandhandler.go`) -/

/-- The function `createImageMessage`. -/
def createImageMessage (env : Env) (uploaded : UploadResponse) (data : Bytes)
    (captionMsg : String) : WaMessage :=
  WaMessage.ImageMessage uploaded.URL (env.DetectContentType data) captionMsg
    uploaded.FileSHA256 (data.length % 2 ^ 64) uploaded.MediaKey
    uploaded.FileEncSHA256 uploaded.DirectPath

/-- The function `createDocumentMessage`. -/
def createDocumentMessage (env : Env) (fileName : String) (uploaded : UploadResponse)
    (data : Bytes) (captionMsg : String) : WaMessage :=
  WaMessage.DocumentMessage fileName uploaded.URL uploaded.DirectPath uploaded.MediaKey
    (env.DetectContentType data) uploaded.FileEncSHA256 uploaded.FileSHA256
    (data.length % 2 ^ 64) ("document" ++ env.Ext uploaded.URL) captionMsg

/-! ## The single-recipient media senders (`handleSendImage`, `handleSendDocument`)

Each returns its error (`none` for `nil`) and the actions it performed. There
is one goroutine, so the collaborators are called as task 0. -/

/-- The function `handleSendImage`. -/
def handleSendImage (env : Env) (JID : String) (userID : Int) (data : Bytes)
    (captionMsg : String) : Option String × List Effect :=
  match env.parseJID JID with
  | none => (some "invalid JID", [])
  | some recipient =>
    match env.Upload 0 data MediaType.MediaImage with
    | .error err =>
      (some ("failed to upload file: " ++ err), [Effect.Upload 0 data MediaType.MediaImage])
    | .ok uploaded =>
      let msg := createImageMessage env uploaded data captionMsg
      match env.SendMessage 0 recipient msg with
      | .error err =>
        (some ("error sending image message: " ++ err),
          [Effect.Upload 0 data MediaType.MediaImage, Effect.SendMessage 0 recipient msg])
      | .ok resp =>
        let sent := [Effect.Upload 0 data MediaType.MediaImage,
          Effect.SendMessage 0 recipient msg,
          Effect.Infof ("Image message sent (server timestamp: " ++ resp.Timestamp ++ ")"),
          Effect.insertMessages resp.ID env.storeID recipient.str "" "media" resp.Timestamp
            true "" userID]
        match env.insertMessages resp.ID env.storeID recipient.str "" "media" resp.Timestamp
            true "" userID with
        | some err => (some ("error inserting into messages: " ++ err), sent)
        | none =>
          let stored := sent ++ [Effect.insertLastMessages resp.ID env.storeID recipient.str
            "" "media" resp.Timestamp true "" userID]
          match env.insertLastMessages resp.ID env.storeID recipient.str "" "media"
              resp.Timestamp true "" userID with
          | some err => (some ("error inserting into last_messages: " ++ err), stored)
          | none =>
            (none, stored ++ [Effect.saveImageToDisk msg data resp.ID] ++
              (if env.wsConn then
                [Effect.WriteJSON ⟨resp.ID, recipient.str, "media", "", true, ""⟩]
              else []))

/-- The function `handleSendDocument`. -/
def handleSendDocument (env : Env) (JID : String) (fileName : String) (userID : Int)
    (data : Bytes) (captionMsg : String) : Option String × List Effect :=
  match env.parseJID JID with
  | none => (some "invalid JID", [])
  | some recipient =>
    match env.Upload 0 data MediaType.MediaDocument with
    | .error err =>
      (some ("failed to upload file: " ++ err), [Effect.Upload 0 data MediaType.MediaDocument])
    | .ok uploaded =>
      let msg := createDocumentMessage env fileName uploaded data captionMsg
      match env.SendMessage 0 recipient msg with
      | .error err =>
        (some ("error sending document message: " ++ err),
          [Effect.Upload 0 data MediaType.MediaDocument, Effect.SendMessage 0 recipient msg])
      | .ok resp =>
        let sent := [Effect.Upload 0 data MediaType.MediaDocument,
          Effect.SendMessage 0 recipient msg,
          Effect.Infof ("Document message sent (server timestamp: " ++ resp.Timestamp ++ ")"),
          Effect.insertMessages resp.ID env.storeID recipient.str "" "media" resp.Timestamp
            true fileName userID]
        match env.insertMessages resp.ID env.storeID recipient.str "" "media" resp.Timestamp
            true fileName userID with
        | some err => (some ("error inserting into messages: " ++ err), sent)
        | none =>
          let stored := sent ++ [Effect.insertLastMessages resp.ID env.storeID recipient.str
            "" "media" resp.Timestamp true fileName userID]
          match env.insertLastMessages resp.ID env.storeID recipient.str "" "media"
              resp.Timestamp true fileName userID with
          | some err => (some ("error inserting into last_messages: " ++ err), stored)
          | none =>
            (none, stored ++ [Effect.saveDocumentToDisk msg data resp.ID] ++
              (if env.wsConn then
                [Effect.WriteJSON ⟨resp.ID, recipient.str, "media", "", true, fileName⟩]
              else []))

/-! ## The bulk media senders (`newHandleSendImage`, `newHandleSendDocument`)

The two functions are the same text up to the media kind, the message
builder, the wording of the send error and log line, the save function and the
file name put in the returned `Message`; `BulkKind` carries those
differences. -/

/-- Which of the two bulk media senders runs. -/
inductive BulkKind
  | image
  | document (fileName : String)
deriving DecidableEq, Repr

/-- The media kind given to `cli.Upload`. -/
def BulkKind.mediaType : BulkKind → MediaType
  | .image => MediaType.MediaImage
  | .document _ => MediaType.MediaDocument

/-- The message built after a successful upload. -/
def BulkKind.createMessage (env : Env) (k : BulkKind) (uploaded : UploadResponse)
    (data : Bytes) (captionMsg : String) : WaMessage :=
  match k with
  | .image => createImageMessage env uploaded data captionMsg
  | .document fileName => createDocumentMessage env fileName uploaded data captionMsg

/-- The error recorded when `cli.SendMessage` fails with message `e`. -/
def BulkKind.sendError (k : BulkKind) (e : String) : String :=
  match k with
  | .image => "error sending image message: " ++ e
  | .document _ => "error sending document message: " ++ e

/-- The line logged after a successful send. -/
def BulkKind.sentLine (k : BulkKind) (resp : SendResponse) : String :=
  match k with
  | .image => "Image message sent (server timestamp: " ++ resp.Timestamp ++ ")"
  | .document _ => "Document message sent (server timestamp: " ++ resp.Timestamp ++ ")"

/-- The call of `saveImageToDisk` or `saveDocumentToDisk`. -/
def BulkKind.save (k : BulkKind) (msg : WaMessage) (data : Bytes) (ID : String) : Effect :=
  match k with
  | .image => Effect.saveImageToDisk msg data ID
  | .document _ => Effect.saveDocumentToDisk msg data ID

/-- The `Message` appended to `sliceM` for a successful send. -/
def BulkKind.message (k : BulkKind) (resp : SendResponse) (recipient : JID) : Message :=
  match k with
  | .image => ⟨resp.ID, recipient.str, "media", "", true, ""⟩
  | .document fileName => ⟨resp.ID, recipient.str, "media", "", true, fileName⟩

/-- Where one goroutine of a bulk media sender stands. -/
inductive BulkTask
  /-- Spawned, `parseJID` not yet called. -/
  | start
  /-- The recipient parsed; `cli.Upload` not yet called. -/
  | parsed (recipient : JID)
  /-- The upload succeeded; `cli.SendMessage` not yet called. -/
  | uploaded (recipient : JID) (uploaded : UploadResponse)
  /-- The send succeeded; the log line and the save are still to come. -/
  | sent (recipient : JID) (msg : WaMessage) (resp : SendResponse)
  /-- About to append `m` to `sliceM` under the mutex. -/
  | storing (m : Message)
  /-- About to append `err` to `errs` under the mutex. -/
  | failing (err : String)
  /-- Returned; `wg.Done()` has run. -/
  | done
deriving DecidableEq, Repr

/-- Whether the goroutine has returned. -/
def BulkTask.isDone : BulkTask → Bool
  | .done => true
  | _ => false

/-- The shared variables of one invocation and the actions performed so far. -/
structure BulkState where
  tasks : List BulkTask
  sliceM : List Message
  errs : List String
  trace : List Effect
deriving DecidableEq, Repr

/-- The state after the `for` loop has spawned one goroutine per entry. -/
def bulkInit (JIDS : List String) : BulkState :=
  ⟨JIDS.map (fun _ => BulkTask.start), [], [], []⟩

/-- Goroutine `i` runs up to its next visible action. -/
def bulkStep (env : Env) (k : BulkKind) (JIDS : List String) (data : Bytes)
    (captionMsg : String) (s : BulkState) (i : Nat) : BulkState :=
  match JIDS[i]?, s.tasks[i]? with
  | some jid, some BulkTask.start =>
    match env.parseJID jid with
    | none => { s with tasks := s.tasks.set i (BulkTask.failing ("invalid JID: " ++ jid)) }
    | some recipient => { s with tasks := s.tasks.set i (BulkTask.parsed recipient) }
  | some _, some (BulkTask.parsed recipient) =>
    match env.Upload i data k.mediaType with
    | .error e =>
      { s with tasks := s.tasks.set i (BulkTask.failing ("failed to upload file: " ++ e))
               trace := s.trace ++ [Effect.Upload i data k.mediaType] }
    | .ok up =>
      { s with tasks := s.tasks.set i (BulkTask.uploaded recipient up)
               trace := s.trace ++ [Effect.Upload i data k.mediaType] }
  | some _, some (BulkTask.uploaded recipient up) =>
    match env.SendMessage i recipient (k.createMessage env up data captionMsg) with
    | .error e =>
      { s with tasks := s.tasks.set i (BulkTask.failing (k.sendError e))
               trace := s.trace ++
                 [Effect.SendMessage i recipient (k.createMessage env up data captionMsg)] }
    | .ok resp =>
      { s with tasks := s.tasks.set i
                 (BulkTask.sent recipient (k.createMessage env up data captionMsg) resp)
               trace := s.trace ++
                 [Effect.SendMessage i recipient (k.createMessage env up data captionMsg)] }
  | some _, some (BulkTask.sent recipient msg resp) =>
    { s with tasks := s.tasks.set i (BulkTask.storing (k.message resp recipient))
             trace := s.trace ++ [Effect.Infof (k.sentLine resp), k.save msg data resp.ID] }
  | some _, some (BulkTask.storing m) =>
    { s with tasks := s.tasks.set i BulkTask.done, sliceM := s.sliceM ++ [m] }
  | some _, some (BulkTask.failing err) =>
    { s with tasks := s.tasks.set i BulkTask.done, errs := s.errs ++ [err] }
  | _, _ => s

/-- The state reached from the spawned goroutines under schedule `sched`. -/
def bulkRun (env : Env) (k : BulkKind) (JIDS : List String) (data : Bytes)
    (captionMsg : String) (sched : List Nat) : BulkState :=
  sched.foldl (bulkStep env k JIDS data captionMsg) (bulkInit JIDS)

/-- What follows `wg.Wait()`: nothing is returned while a goroutine is still
running; afterwards `nil, errs[0]` if `len(errs) > 0`, else `sliceM, nil`. -/
def bulkReturn (s : BulkState) : Option (List Message × Option String) :=
  if s.tasks.all BulkTask.isDone then
    match s.errs with
    | err :: _ => some ([], some err)
    | [] => some (s.sliceM, none)
  else none

/-- A bulk media sender under schedule `sched`: the returned pair, or `none`
while `wg.Wait()` has not returned. -/
def bulkSend (env : Env) (k : BulkKind) (JIDS : List String) (data : Bytes)
    (captionMsg : String) (sched : List Nat) : Option (List Message × Option String) :=
  bulkReturn (bulkRun env k JIDS data captionMsg sched)

/-- The function `newHandleSendImage` under schedule `sched`. -/
def newHandleSendImage (env : Env) (JIDS : List String) (data : Bytes)
    (captionMsg : String) (sched : List Nat) : Option (List Message × Option String) :=
  bulkSend env BulkKind.image JIDS data captionMsg sched

/-- The function `newHandleSendDocument` under schedule `sched`. -/
def newHandleSendDocument (env : Env) (JID : List String) (fileName : String)
    (data : Bytes) (captionMsg : String) (sched : List Nat) :
    Option (List Message × Option String) :=
  bulkSend env (BulkKind.document fileName) JID data captionMsg sched

/-- A schedule under which each of the `n` goroutines gets the five turns that
the longest path through its body takes. -/
def Fair (n : Nat) (sched : List Nat) : Prop :=
  ∀ i, i < n → 5 ≤ sched.count i

/-- A sample environment: a raw recipient containing `@` does not parse and any
other gets the default server, every upload succeeds, and a send fails exactly
for the recipient `222`. The content type is detected as the library does for
empty data, for data starting with the PNG, JPEG or PDF signature and for
other data by whether a binary byte occurs; `ToLower` is the library function
on ASCII text. -/
def sampleEnv : Env where
  parseJID := fun s =>
    if s.data.contains '@' then none else some ⟨s ++ "@s.whatsapp.net"⟩
  Upload := fun _ _ _ => .ok ⟨"https://mmg/f.enc", "/v/f.enc", [1], [2], [3]⟩
  SendMessage := fun _ recipient _ =>
    if recipient.str = "222@s.whatsapp.net" then .error "timeout"
    else .ok ⟨"ID-" ++ recipient.str, "t0"⟩
  DetectContentType := fun data =>
    if ([137, 80, 78, 71, 13, 10, 26, 10] : List Nat).isPrefixOf data then "image/png"
    else if ([255, 216, 255] : List Nat).isPrefixOf data then "image/jpeg"
    else if ([37, 80, 68, 70, 45] : List Nat).isPrefixOf data then "application/pdf"
    else if data.any (fun b => b ≤ 8 || b = 11 || (14 ≤ b && b ≤ 26) || (28 ≤ b && b ≤ 31))
      then "application/octet-stream"
    else "text/plain; charset=utf-8"
  Ext := fun _ => ".enc"
  ToLower := fun s => String.mk (s.data.map Char.toLower)
  storeID := "me@s.whatsapp.net"
  insertMessages := fun _ _ _ _ _ _ _ _ _ => none
  insertLastMessages := fun _ _ _ _ _ _ _ _ _ => none
  wsConn := false

/-- The sample environment with a chat log database that is down: both
persistence calls fail. -/
def storeDownEnv : Env :=
  { sampleEnv with
    insertMessages := fun _ _ _ _ _ _ _ _ _ => some "pq: connection refused"
    insertLastMessages := fun _ _ _ _ _ _ _ _ _ => some "pq: connection refused" }

/-- How many per-recipient outcomes a returned pair carries: the Messages, and
the error when it is not nil. -/
def outcomesCarried (r : List Message × Option String) : Nat :=
  r.1.length + (match r.2 with | some _ => 1 | none => 0)

/-- What the body of goroutine `i` comes to when run alone from start to end:
the error it appends to `errs`, or the `Message` it appends to `sliceM`. -/
def bulkOutcome (env : Env) (k : BulkKind) (data : Bytes) (captionMsg : String)
    (i : Nat) (jid : String) : Except String Message :=
  match env.parseJID jid with
  | none => .error ("invalid JID: " ++ jid)
  | some recipient =>
    match env.Upload i data k.mediaType with
    | .error e => .error ("failed to upload file: " ++ e)
    | .ok up =>
      match env.SendMessage i recipient (k.createMessage env up data captionMsg) with
      | .error e => .error (k.sendError e)
      | .ok resp => .ok (k.message resp recipient)

/-- The program counter `t` of goroutine `i` agrees with what the collaborators
answered it so far. -/
def TaskOk (env : Env) (k : BulkKind) (data : Bytes) (captionMsg : String)
    (i : Nat) (jid : String) : BulkTask → Prop
  | .start => True
  | .parsed recipient => env.parseJID jid = some recipient
  | .uploaded recipient up =>
    env.parseJID jid = some recipient ∧ env.Upload i data k.mediaType = .ok up
  | .sent recipient _ resp =>
    env.parseJID jid = some recipient ∧
      bulkOutcome env k data captionMsg i jid = .ok (k.message resp recipient)
  | .storing m => bulkOutcome env k data captionMsg i jid = .ok m
  | .failing err => bulkOutcome env k data captionMsg i jid = .error err
  | .done => True

/-- The goroutine that made a call to the session client. -/
def Effect.task : Effect → Option Nat
  | .Upload i _ _ => some i
  | .SendMessage i _ _ => some i
  | _ => none

/-- Whether the action is a `cli.SendMessage` call made by goroutine `i`. -/
def Effect.isSendBy (i : Nat) : Effect → Bool
  | .SendMessage j _ _ => decide (j = i)
  | _ => false

/-- Whether the goroutine has not yet called `cli.SendMessage`. -/
def BulkTask.beforeSend : BulkTask → Bool
  | .start => true
  | .parsed _ => true
  | .uploaded _ _ => true
  | _ => false

/-- How many turns the goroutine still needs at most. -/
def BulkTask.remaining : BulkTask → Nat
  | .start => 5
  | .parsed _ => 4
  | .uploaded _ _ => 3
  | .sent _ _ _ => 2
  | .storing _ => 1
  | .failing _ => 1
  | .done => 0

/-- One turn of goroutine `i`, as a relation: from program counter `t` to
`t2`, appending `ms` to `sliceM`, `es` to `errs` and `tr` to the trace. -/
inductive Move (env : Env) (k : BulkKind) (data : Bytes) (captionMsg : String)
    (i : Nat) (jid : String) : BulkTask → BulkTask → List Message → List String → List Effect → Prop
  | parseFail : env.parseJID jid = none →
      Move env k data captionMsg i jid .start (.failing ("invalid JID: " ++ jid)) [] [] []
  | parseOk (r : JID) : env.parseJID jid = some r →
      Move env k data captionMsg i jid .start (.parsed r) [] [] []
  | uploadFail (r : JID) (e : String) : env.Upload i data k.mediaType = .error e →
      Move env k data captionMsg i jid (.parsed r) (.failing ("failed to upload file: " ++ e))
        [] [] [Effect.Upload i data k.mediaType]
  | uploadOk (r : JID) (up : UploadResponse) : env.Upload i data k.mediaType = .ok up →
      Move env k data captionMsg i jid (.parsed r) (.uploaded r up)
        [] [] [Effect.Upload i data k.mediaType]
  | sendFail (r : JID) (up : UploadResponse) (e : String) :
      env.SendMessage i r (k.createMessage env up data captionMsg) = .error e →
      Move env k data captionMsg i jid (.uploaded r up) (.failing (k.sendError e))
        [] [] [Effect.SendMessage i r (k.createMessage env up data captionMsg)]
  | sendOk (r : JID) (up : UploadResponse) (resp : SendResponse) :
      env.SendMessage i r (k.createMessage env up data captionMsg) = .ok resp →
      Move env k data captionMsg i jid (.uploaded r up)
        (.sent r (k.createMessage env up data captionMsg) resp)
        [] [] [Effect.SendMessage i r (k.createMessage env up data captionMsg)]
  | logSave (r : JID) (msg : WaMessage) (resp : SendResponse) :
      Move env k data captionMsg i jid (.sent r msg resp) (.storing (k.message resp r))
        [] [] [Effect.Infof (k.sentLine resp), k.save msg data resp.ID]
  | store (m : Message) :
      Move env k data captionMsg i jid (.storing m) .done [m] [] []
  | fail (err : String) :
      Move env k data captionMsg i jid (.failing err) .done [] [err] []

/-- What holds of the shared state after any schedule. -/
structure BulkInv (env : Env) (k : BulkKind) (JIDS : List String) (data : Bytes)
    (captionMsg : String) (s : BulkState) : Prop where
  len : s.tasks.length = JIDS.length
  count : s.sliceM.length + s.errs.length = s.tasks.countP BulkTask.isDone
  ok : ∀ i t jid, s.tasks[i]? = some t → JIDS[i]? = some jid →
    TaskOk env k data captionMsg i jid t
  errsFrom : ∀ e ∈ s.errs, ∃ i jid, JIDS[i]? = some jid ∧ s.tasks[i]? = some BulkTask.done ∧
    bulkOutcome env k data captionMsg i jid = .error e
  msgsFrom : ∀ m ∈ s.sliceM, ∃ i jid, JIDS[i]? = some jid ∧ s.tasks[i]? = some BulkTask.done ∧
    bulkOutcome env k data captionMsg i jid = .ok m
  errsDone : ∀ i jid e, s.tasks[i]? = some BulkTask.done → JIDS[i]? = some jid →
    bulkOutcome env k data captionMsg i jid = .error e → e ∈ s.errs
  msgsDone : ∀ i jid m, s.tasks[i]? = some BulkTask.done → JIDS[i]? = some jid →
    bulkOutcome env k data captionMsg i jid = .ok m → m ∈ s.sliceM
  calls : ∀ ev ∈ s.trace, ∀ j, ev.task = some j →
    ∃ jid r, JIDS[j]? = some jid ∧ env.parseJID jid = some r
  sendTo : ∀ j r msg, Effect.SendMessage j r msg ∈ s.trace →
    ∃ jid, JIDS[j]? = some jid ∧ env.parseJID jid = some r
  sendOnce : ∀ j, s.trace.countP (Effect.isSendBy j) ≤ 1 ∧
    ∀ t, s.tasks[j]? = some t → t.beforeSend = true → s.trace.countP (Effect.isSendBy j) = 0

/-! ## The bulk text sender (`handleSendNewTextMessageBulk`) -/

/-- Where one goroutine of the bulk text sender stands. -/
inductive TextTask
  /-- Spawned, `parseJID` not yet called. -/
  | start
  /-- The recipient parsed; the line `Sending message to` not yet logged. -/
  | parsed (recipient : JID)
  /-- The line is logged; `cli.SendMessage` not yet called. -/
  | announced (recipient : JID)
  /-- The call `cli.SendMessage` has answered; its log line is still to come. -/
  | replied (res : Except String SendResponse)
  /-- Returned; `wg.Done()` has run. -/
  | done
deriving Repr

/-- Whether the goroutine has returned. -/
def TextTask.isDone : TextTask → Bool
  | .done => true
  | _ => false

/-- Whether the goroutine has not yet called `cli.SendMessage`. -/
def TextTask.beforeSend : TextTask → Bool
  | .start => true
  | .parsed _ => true
  | .announced _ => true
  | _ => false

/-- The goroutines of one invocation and the actions performed so far. The
function has no other variable: it keeps no result and no error. -/
structure TextState where
  tasks : List TextTask
  trace : List Effect
deriving Repr

/-- The state after the `for` loop has spawned one goroutine per entry. -/
def textInit (jids : List String) : TextState :=
  ⟨jids.map (fun _ => TextTask.start), []⟩

/-- Goroutine `i` of the bulk text sender runs up to its next visible action. -/
def textStep (env : Env) (textMsg : String) (jids : List String) (s : TextState)
    (i : Nat) : TextState :=
  match jids[i]?, s.tasks[i]? with
  | some jid, some TextTask.start =>
    match env.parseJID jid with
    | none => { s with tasks := s.tasks.set i TextTask.done }
    | some recipient => { s with tasks := s.tasks.set i (TextTask.parsed recipient) }
  | some _, some (TextTask.parsed recipient) =>
    { tasks := s.tasks.set i (TextTask.announced recipient)
      trace := s.trace ++
        [Effect.Infof ("Sending message to " ++ recipient.str ++ ": " ++ textMsg)] }
  | some _, some (TextTask.announced recipient) =>
    { tasks := s.tasks.set i
        (TextTask.replied (env.SendMessage i recipient (WaMessage.Conversation textMsg)))
      trace := s.trace ++ [Effect.SendMessage i recipient (WaMessage.Conversation textMsg)] }
  | some _, some (TextTask.replied (.error e)) =>
    { tasks := s.tasks.set i TextTask.done
      trace := s.trace ++ [Effect.Errorf ("Error sending message: " ++ e)] }
  | some _, some (TextTask.replied (.ok resp)) =>
    { tasks := s.tasks.set i TextTask.done
      trace := s.trace ++
        [Effect.Infof ("Message sent (server timestamp: " ++ resp.Timestamp ++ ")")] }
  | _, _ => s

/-- The state reached from the spawned goroutines under schedule `sched`. -/
def textRun (env : Env) (textMsg : String) (jids : List String) (sched : List Nat) :
    TextState :=
  sched.foldl (textStep env textMsg jids) (textInit jids)

/-- The function `handleSendNewTextMessageBulk` under schedule `sched`. It
returns no value: the result is the list of actions it has performed when
`wg.Wait()` returns, and `none` while a goroutine is still running. -/
def handleSendNewTextMessageBulk (env : Env) (textMsg : String) (jids : List String)
    (sched : List Nat) : Option (List Effect) :=
  if (textRun env textMsg jids sched).tasks.all TextTask.isDone then
    some (textRun env textMsg jids sched).trace
  else none

/-- The program counter of text goroutine `i` agrees with `parseJID`. -/
def TextTaskOk (env : Env) (jid : String) : TextTask → Prop
  | .parsed recipient => env.parseJID jid = some recipient
  | .announced recipient => env.parseJID jid = some recipient
  | _ => True

/-- One turn of text goroutine `i`, as a relation: from program counter `t`
to `t2`, appending `tr` to the trace. -/
inductive TextMove (env : Env) (textMsg : String) (i : Nat) (jid : String) :
    TextTask → TextTask → List Effect → Prop
  | parseFail : env.parseJID jid = none →
      TextMove env textMsg i jid .start .done []
  | parseOk (r : JID) : env.parseJID jid = some r →
      TextMove env textMsg i jid .start (.parsed r) []
  | announce (r : JID) :
      TextMove env textMsg i jid (.parsed r) (.announced r)
        [Effect.Infof ("Sending message to " ++ r.str ++ ": " ++ textMsg)]
  | send (r : JID) :
      TextMove env textMsg i jid (.announced r)
        (.replied (env.SendMessage i r (WaMessage.Conversation textMsg)))
        [Effect.SendMessage i r (WaMessage.Conversation textMsg)]
  | logError (e : String) :
      TextMove env textMsg i jid (.replied (.error e)) .done
        [Effect.Errorf ("Error sending message: " ++ e)]
  | logSent (resp : SendResponse) :
      TextMove env textMsg i jid (.replied (.ok resp)) .done
        [Effect.Infof ("Message sent (server timestamp: " ++ resp.Timestamp ++ ")")]

/-- What holds of the text sender after any schedule. -/
structure TextInv (env : Env) (jids : List String) (s : TextState) : Prop where
  len : s.tasks.length = jids.length
  ok : ∀ (i : Nat) t jid, s.tasks[i]? = some t → jids[i]? = some jid → TextTaskOk env jid t
  calls : ∀ ev ∈ s.trace, ∀ j, ev.task = some j →
    ∃ jid r, jids[j]? = some jid ∧ env.parseJID jid = some r
  sendTo : ∀ j r msg, Effect.SendMessage j r msg ∈ s.trace →
    ∃ jid, jids[j]? = some jid ∧ env.parseJID jid = some r
  sendOnce : ∀ j, s.trace.countP (Effect.isSendBy j) ≤ 1 ∧
    ∀ t, s.tasks[j]? = some t → t.beforeSend = true → s.trace.countP (Effect.isSendBy j) = 0

/-! ## The ingress loops (`main.go`, `ws.go`)

Go strings are taken as sequences of Unicode characters. -/

/-- The predicate `unicode.IsSpace`. -/
def isSpace (c : Char) : Bool :=
  (0x09 ≤ c.toNat && c.toNat ≤ 0x0D) || c.toNat = 0x20 || c.toNat = 0x85 ||
  c.toNat = 0xA0 || c.toNat = 0x1680 || (0x2000 ≤ c.toNat && c.toNat ≤ 0x200A) ||
  c.toNat = 0x2028 || c.toNat = 0x2029 || c.toNat = 0x202F || c.toNat = 0x205F ||
  c.toNat = 0x3000

/-- The scan of `strings.Fields`: `cur` is the field being read, reversed. -/
def fieldsFrom : List Char → List Char → List String
  | [], cur => if cur.isEmpty then [] else [String.mk cur.reverse]
  | c :: cs, cur =>
    if isSpace c then
      if cur.isEmpty then fieldsFrom cs [] else String.mk cur.reverse :: fieldsFrom cs []
    else fieldsFrom cs (c :: cur)

/-- The function `strings.Fields`: the maximal runs of non-space characters. -/
def Fields (s : String) : List String :=
  fieldsFrom s.data []

/-- What one iteration of an ingress loop does with what it has read. -/
inductive LoopAction
  /-- The loop ends (`return`). -/
  | exit
  /-- The statement `pairRejectChan <- reject`, then `continue`. -/
  | send (reject : Bool)
  /-- Only `continue`. -/
  | skip
  /-- The command is handed to `handleCmd`. -/
  | handleCmd (command : Command)
deriving DecidableEq, Repr

/-- The `case cmd := <-input` branch of the loop of `main`, given the value
loaded from `isWaitingForPair`. Here `cmd` is what arrived on `input`: a line
already trimmed by the reader goroutine (`stdinReader`), or the empty string
that a closed `input` channel delivers. -/
def mainLoopBody (env : Env) (isWaitingForPair : Bool) (cmd : String) : LoopAction :=
  if cmd.length = 0 then LoopAction.exit
  else if isWaitingForPair then
    if cmd = "r" then LoopAction.send true
    else if cmd = "a" then LoopAction.send false
    else LoopAction.skip
  else
    match Fields cmd with
    | [] => LoopAction.skip
    | name :: rest => LoopAction.handleCmd ⟨env.ToLower name, rest, 0⟩

/-- One iteration of the loop of `serveWs`, given what `wsConn.ReadJSON(&cmd)`
produced: the error, or the decoded `Command`. -/
def serveWsBody (read : Except String Command) : LoopAction :=
  match read with
  | .error _ => LoopAction.exit
  | .ok cmd => LoopAction.handleCmd cmd

/-! ## The pairing callback and the terminal loop (`main.go`)

One callback thread and the terminal loop share `pairRejectChan`, a channel
with a buffer of one, and the flag `isWaitingForPair`. Time is a counter of
seconds advanced by `tick`. Log lines are left out. -/

/-- What the `select` of the pairing callback receives. -/
inductive SelectEvent
  /-- The case `reject := <-pairRejectChan`. -/
  | decision (reject : Bool)
  /-- The case `<-time.After(3 * time.Second)`. -/
  | timeout
deriving DecidableEq, Repr

/-- The value `cli.PrePairCallback` returns, given what its `select` received. -/
def prePairResult : SelectEvent → Bool
  | .decision reject => if reject then false else true
  | .timeout => true

/-- Where the pairing callback stands. -/
inductive CallbackPC
  /-- Not running. -/
  | idle
  /-- In the `select`, after `isWaitingForPair.Store(true)`; the timer fires
  at `deadline`. -/
  | selecting (deadline : Nat)
  /-- Past the `select`, about to run the deferred
  `isWaitingForPair.Store(false)` and return `result`. -/
  | returning (result : Bool)
deriving DecidableEq, Repr

/-- Where the loop of `main` stands. -/
inductive TerminalPC
  /-- In the outer `select`. -/
  | reading
  /-- At `pairRejectChan <- reject`, after `isWaitingForPair.Load()` gave true. -/
  | sending (reject : Bool)
  /-- Returned from `main`. -/
  | exited
deriving DecidableEq, Repr

/-- The shared variables, the two program counters, the clock, the values
returned by the callback so far and the commands handed to `handleCmd` so far. -/
structure PairState where
  pairRejectChan : Option Bool
  isWaitingForPair : Bool
  callback : CallbackPC
  terminal : TerminalPC
  now : Nat
  results : List Bool
  handled : List Command
deriving DecidableEq, Repr

/-- The state when the loop of `main` is entered. -/
def pairInit : PairState :=
  ⟨none, false, CallbackPC.idle, TerminalPC.reading, 0, [], []⟩

/-- The steps of the two threads and of the clock. -/
inductive PairLabel
  /-- The client calls `cli.PrePairCallback`, which runs up to its `select`. -/
  | cbStart
  /-- The `select` takes `reject := <-pairRejectChan`. -/
  | cbRecv
  /-- The `select` takes `<-time.After(3 * time.Second)`. -/
  | cbTimeout
  /-- The callback returns, running the deferred store. -/
  | cbReturn
  /-- The loop of `main` receives `cmd` from `input` and runs up to the channel
  send, the call of `handleCmd`, or the next iteration. -/
  | termLine (cmd : String)
  /-- The pending `pairRejectChan <- reject` completes. -/
  | termSend
  /-- The loop of `main` receives a signal from `c`. -/
  | interrupt
  /-- One second passes. -/
  | tick
deriving DecidableEq, Repr

/-- One step; `none` when the step cannot be taken in `s` (the thread is
elsewhere, the receive finds the channel empty, the timer has not fired, or
the send finds the buffer full and blocks). -/
def pairStep (env : Env) (s : PairState) : PairLabel → Option PairState
  | .cbStart =>
    match s.callback with
    | .idle => some { s with isWaitingForPair := true, callback := .selecting (s.now + 3) }
    | _ => none
  | .cbRecv =>
    match s.callback, s.pairRejectChan with
    | .selecting _, some reject =>
      some { s with pairRejectChan := none
                    callback := .returning (prePairResult (.decision reject)) }
    | _, _ => none
  | .cbTimeout =>
    match s.callback with
    | .selecting deadline =>
      if deadline ≤ s.now then some { s with callback := .returning (prePairResult .timeout) }
      else none
    | _ => none
  | .cbReturn =>
    match s.callback with
    | .returning result =>
      some { s with isWaitingForPair := false, callback := .idle
                    results := s.results ++ [result] }
    | _ => none
  | .termLine cmd =>
    match s.terminal with
    | .reading =>
      match mainLoopBody env s.isWaitingForPair cmd with
      | .exit => some { s with terminal := .exited }
      | .send reject => some { s with terminal := .sending reject }
      | .skip => some s
      | .handleCmd command => some { s with handled := s.handled ++ [command] }
    | _ => none
  | .termSend =>
    match s.terminal, s.pairRejectChan with
    | .sending reject, none => some { s with pairRejectChan := some reject, terminal := .reading }
    | _, _ => none
  | .interrupt =>
    match s.terminal with
    | .reading => some { s with terminal := .exited }
    | _ => none
  | .tick => some { s with now := s.now + 1 }

/-- The state after the steps of `sched` from `s`, if each can be taken. -/
def pairRunFrom (env : Env) : PairState → List PairLabel → Option PairState
  | s, [] => some s
  | s, l :: ls =>
    match pairStep env s l with
    | some s2 => pairRunFrom env s2 ls
    | none => none

/-- The state after the steps of `sched` from the initial state. -/
def pairRun (env : Env) (sched : List PairLabel) : Option PairState :=
  pairRunFrom env pairInit sched

/-- Whether the action is a `cli.SendMessage` call to recipient `r`. -/
def Effect.isSendTo (r : JID) : Effect → Bool
  | .SendMessage _ r2 _ => decide (r2 = r)
  | _ => false

/-- The goroutine of a `cli.SendMessage` call to recipient `r`. -/
def Effect.senderTo (r : JID) : Effect → Option Nat
  | .SendMessage j r2 _ => if r2 = r then some j else none
  | _ => none

/-- Whether a pairing attempt is in its `select`, not yet resolved. -/
def CallbackPC.pending : CallbackPC → Bool
  | .selecting _ => true
  | _ => false

/-! ## The single text sender and its HTTP handler (`handleSendNewTextMessage`, `serveSendText`) -/

/-- What a handler wrote to its `http.ResponseWriter`: the status code, the
headers in the order set, and the body. -/
structure Response where
  status : Nat
  headers : List (String × String)
  body : String
deriving DecidableEq, Repr

/-- The local struct `messageBodyText` of `serveSendText`. -/
structure MessageBodyText where
  Recipient : String
  Message : String
deriving DecidableEq, Repr

/-- The package `encoding/json` as the handlers use it. -/
structure Json where
  /-- The call `json.Unmarshal(body, &msgBody)` of `serveSendText`. -/
  UnmarshalText : String → Except String MessageBodyText
  /-- The call `json.Marshal(msgBody)` of `serveSendText`. -/
  MarshalText : MessageBodyText → Except String String
  /-- The call `json.Marshal(resp)` of `newUploadHandler`. -/
  MarshalMessages : List Message → Except String String

/-- What `serveSendText` reads of its request: the method and the result of
`io.ReadAll(r.Body)`. -/
structure SendRequest where
  Method : String
  Body : Except String String
deriving Repr

/-- The function `http.Error` after the headers `headers` were set. -/
def httpError (headers : List (String × String)) (message : String) (code : Nat) : Response :=
  ⟨code, headers ++ [("Content-Type", "text/plain; charset=utf-8"),
    ("X-Content-Type-Options", "nosniff")], message ++ "\n"⟩

/-- The function `handleSendNewTextMessage`: it returns no value, the result is
the list of actions it performed. -/
def handleSendNewTextMessage (env : Env) (textMsg : String) (jid : String) : List Effect :=
  match env.parseJID jid with
  | none => []
  | some recipient =>
    let msg := WaMessage.Conversation textMsg
    match env.SendMessage 0 recipient msg with
    | .error err =>
      [Effect.Infof ("Sending message to " ++ recipient.str ++ ": " ++ textMsg),
        Effect.SendMessage 0 recipient msg,
        Effect.Errorf ("Error sending message: " ++ err)]
    | .ok resp =>
      [Effect.Infof ("Sending message to " ++ recipient.str ++ ": " ++ textMsg),
        Effect.SendMessage 0 recipient msg,
        Effect.Infof ("Message sent (server timestamp: " ++ resp.Timestamp ++ ")")]

/-- The three headers `serveSendText` sets first. -/
def sendTextCors : List (String × String) :=
  [("Access-Control-Allow-Origin", "*"), ("Access-Control-Allow-Methods", "POST"),
    ("Access-Control-Allow-Headers", "Content-Type")]

/-- The function `serveSendText`, given the value of `cli.IsLoggedIn()`: the
response written and the actions performed. -/
def serveSendText (json : Json) (env : Env) (isLoggedIn : Bool) (r : SendRequest) :
    Response × List Effect :=
  if r.Method = "OPTIONS" then (⟨200, sendTextCors, ""⟩, [])
  else if isLoggedIn then
    match r.Body with
    | .error _ => (httpError sendTextCors "Error reading request body" 400, [])
    | .ok body =>
      match json.UnmarshalText body with
      | .error _ => (httpError sendTextCors "Error decoding JSON" 400, [])
      | .ok msgBody =>
        let done := handleSendNewTextMessage env msgBody.Message msgBody.Recipient
        match json.MarshalText msgBody with
        | .error _ => (httpError sendTextCors "Error decoding JSON" 400, done)
        | .ok respJson =>
          (⟨200, sendTextCors ++ [("Content-Type", "application/json")], respJson⟩, done)
  else (⟨503, sendTextCors, ""⟩, [])

/-- A sample JSON codec for `messageBodyText`: the body holds the recipient
and the message as two fields separated by white space. -/
def sampleJson : Json where
  UnmarshalText := fun body =>
    match Fields body with
    | [recipient, message] => .ok ⟨recipient, message⟩
    | _ => .error "unexpected end of JSON input"
  MarshalText := fun b => .ok (b.Recipient ++ " " ++ b.Message)
  MarshalMessages := fun ms => .ok (String.join (ms.map (fun m => m.ID ++ " ")))

/-- The sample environment with the session down: every send fails. -/
def sendDownEnv : Env :=
  { sampleEnv with SendMessage := fun _ _ _ => .error "websocket not connected" }

/-! ## Handlers and the ingress loops (`main.go`, `ws.go`)

A call of `handleCmd` starts at one step and returns at a later one. The loop
of `main` starts it with `go`, the loop of `serveWs` calls it. -/

/-- An ingress loop and the calls of `handleCmd` it has made. -/
structure LoopState where
  /-- Every `Command` handed to `handleCmd`, in order. -/
  started : List Command
  /-- The positions in `started` of the calls that have returned. -/
  returned : List Nat
  /-- The loop goroutine is inside a call of `handleCmd`. -/
  inHandler : Bool
  /-- The loop has returned. -/
  exited : Bool
deriving DecidableEq, Repr

/-- The state when a loop is entered. -/
def loopInit : LoopState :=
  ⟨[], [], false, false⟩

/-- The steps of an ingress loop and of its handlers. -/
inductive LoopLabel
  /-- The loop of `main` receives `cmd` from `input`, no pairing pending. -/
  | line (cmd : String)
  /-- The call `wsConn.ReadJSON(&cmd)` of `serveWs` returns. -/
  | message (read : Except String Command)
  /-- The call of `handleCmd` at position `i` of `started` returns. -/
  | handlerReturns (i : Nat)
deriving Repr

/-- One step of the loop of `main` with `isWaitingForPair` false: `none` when
the step cannot be taken. The statement `go handleCmd(command)` starts the
call and goes on with the loop. -/
def mainLoopStep (env : Env) (s : LoopState) : LoopLabel → Option LoopState
  | .line cmd =>
    if s.exited then none
    else
      match mainLoopBody env false cmd with
      | .exit => some { s with exited := true }
      | .handleCmd command => some { s with started := s.started ++ [command] }
      | _ => some s
  | .message _ => none
  | .handlerReturns i =>
    if i < s.started.length ∧ i ∉ s.returned then some { s with returned := s.returned ++ [i] }
    else none

/-- One step of the loop of `serveWs`: `none` when the step cannot be taken.
The statement `handleCmd(cmd)` keeps the loop goroutine until the call
returns. -/
def serveWsStep (s : LoopState) : LoopLabel → Option LoopState
  | .line _ => none
  | .message read =>
    if s.exited ∨ s.inHandler then none
    else
      match serveWsBody read with
      | .exit => some { s with exited := true }
      | .handleCmd command => some { s with started := s.started ++ [command], inHandler := true }
      | _ => some s
  | .handlerReturns i =>
    if i < s.started.length ∧ i ∉ s.returned then
      some { s with returned := s.returned ++ [i], inHandler := false }
    else none

/-- The state after the steps of `sched`, if each can be taken. -/
def loopRunFrom (step : LoopState → LoopLabel → Option LoopState) :
    LoopState → List LoopLabel → Option LoopState
  | s, [] => some s
  | s, l :: ls =>
    match step s l with
    | some s2 => loopRunFrom step s2 ls
    | none => none

/-- The file name put in the `Message` of a successful send: empty for an
image, the `fileName` argument for a document. -/
def BulkKind.fileName : BulkKind → String
  | .image => ""
  | .document fileName => fileName

/-- The Message that goroutine `i` has appended to `sliceM`: the one of its
successful send once it has returned, none before or after a failure. -/
def recordedBy (env : Env) (k : BulkKind) (JIDS : List String) (data : Bytes)
    (captionMsg : String) (tasks : List BulkTask) (i : Nat) : Option Message :=
  match tasks[i]?, JIDS[i]? with
  | some BulkTask.done, some jid =>
    match bulkOutcome env k data captionMsg i jid with
    | .ok m => some m
    | .error _ => none
  | _, _ => none

/-! ## The recipient list of an upload (`validateStringArrayAsStringArray`)

The functions of package `strings` work on the characters of the string. -/

/-- The function `strings.TrimSpace` on characters: the leading and the
trailing white space is dropped. -/
def trimSpaceChars (l : List Char) : List Char :=
  (l.dropWhile isSpace).rdropWhile isSpace

/-- The function `strings.TrimSpace`. -/
def TrimSpace (s : String) : String :=
  String.mk (trimSpaceChars s.data)

/-- The function `strings.Split` on characters, for a separator of one
character: the segments between the separators, at least one. -/
def splitChars (sep : Char) : List Char → List (List Char)
  | [] => [[]]
  | c :: cs =>
    if c = sep then [] :: splitChars sep cs
    else
      match splitChars sep cs with
      | [] => [[c]]
      | seg :: segs => (c :: seg) :: segs

/-- The function `strings.Split` for a separator of one character. -/
def Split (s : String) (sep : Char) : List String :=
  (splitChars sep s.data).map String.mk

/-- The function `strings.Join` on characters. -/
def joinChars (sep : List Char) : List (List Char) → List Char
  | [] => []
  | [x] => x
  | x :: y :: rest => x ++ sep ++ joinChars sep (y :: rest)

/-- The function `strings.Join`. -/
def Join (elems : List String) (sep : String) : String :=
  String.mk (joinChars sep.data (elems.map String.data))

/-- The function `validateStringArrayAsStringArray`: the error, or the slice
built by appending the trimmed segments one by one. -/
def validateStringArrayAsStringArray (stringInput : String) : Except String (List String) :=
  if TrimSpace stringInput = "" then .error "empty loanIds"
  else
    let stringsArr := Split stringInput ','
    .ok (stringsArr.foldl (fun stringSlice str => stringSlice ++ [TrimSpace str]) [])

/-! ## The upload handlers (`uploadHandler`, `newUploadHandler`) -/

/-- The function `stringContains`. -/
def stringContains (strSlice : List String) (str : String) : Bool :=
  match strSlice with
  | [] => false
  | val :: rest => if val = str then true else stringContains rest str

/-- The function `isImage`. -/
def isImage (mimeType : String) : Bool :=
  stringContains ["image/jpeg", "image/png"] mimeType

/-- The function `handleError`: the line logged and the response of
`http.Error`; `err` is the printed error, `<nil>` for nil. -/
def handleError (headers : List (String × String)) (statusCode : Nat) (message err : String) :
    Response × List Effect :=
  (httpError headers message statusCode, [Effect.Errorf (message ++ ": " ++ err)])

/-- What `uploadHandler` reads of the parsed form: the result of
`r.FormFile("file")`, its file name with the result of `io.ReadAll(file)`, and
the form values. -/
structure UploadForm where
  file : Except String (String × Except String Bytes)
  jid : String
  user_id : String
  caption : String

/-- What `uploadHandler` reads of its request: the method and the result of
`r.ParseMultipartForm`. -/
structure UploadRequest where
  Method : String
  form : Except String UploadForm

/-- The three headers `uploadHandler` sets first. -/
def uploadCors : List (String × String) :=
  [("Access-Control-Allow-Origin", "*"), ("Access-Control-Allow-Methods", "GET"),
    ("Access-Control-Allow-Headers", "Content-Type")]

/-- The `if` of `uploadHandler` that picks the sender by the detected type. -/
def uploadHandlerSend (env : Env) (JID fileName : String) (userID : Int) (data : Bytes)
    (captionMsg : String) : Option String × List Effect :=
  if stringContains ["image/jpeg", "image/png"] (env.DetectContentType data) then
    handleSendImage env JID userID data captionMsg
  else handleSendDocument env JID fileName userID data captionMsg

/-- The function `uploadHandler`, given `strconv.Atoi`: the response written
and the actions performed. -/
def uploadHandler (env : Env) (Atoi : String → Except String Int) (r : UploadRequest) :
    Response × List Effect :=
  if r.Method = "OPTIONS" then (⟨200, uploadCors, ""⟩, [])
  else
    match r.form with
    | .error err => handleError uploadCors 400 "Failed to parse multipart form" err
    | .ok form =>
      match form.file with
      | .error err => handleError uploadCors 400 "Failed to retrieve file from request" err
      | .ok (fileName, read) =>
        match Atoi form.user_id with
        | .error err => handleError uploadCors 400 "Invalid user ID" err
        | .ok userID =>
          match read with
          | .error err => handleError uploadCors 500 "Failed to read file data" err
          | .ok data =>
            let mimeType := env.DetectContentType data
            match uploadHandlerSend env form.jid fileName userID data form.caption with
            | (some err, done) =>
              let failed := handleError uploadCors 500
                (if stringContains ["image/jpeg", "image/png"] mimeType then
                  "Failed to handle image upload"
                else "Failed to handle document upload") err
              (failed.1, done ++ failed.2)
            | (none, done) =>
              (⟨200, uploadCors, ""⟩,
                done ++ [Effect.Infof ("Uploaded file " ++ fileName ++ " to " ++ form.jid ++
                  ", mimetype: " ++ mimeType)])

/-- The sender `newUploadHandler` picks by the detected type. -/
def newUploadKind (mimeType fileName : String) : BulkKind :=
  if isImage mimeType then BulkKind.image else BulkKind.document fileName

/-- The `if` of `newUploadHandler` that picks the bulk sender by the detected
type, under schedule `sched`. -/
def newUploadHandlerSend (env : Env) (sliceJID : List String) (fileName : String)
    (data : Bytes) (captionMsg : String) (sched : List Nat) :
    Option (List Message × Option String) :=
  if isImage (env.DetectContentType data) then
    newHandleSendImage env sliceJID data captionMsg sched
  else newHandleSendDocument env sliceJID fileName data captionMsg sched

/-- The three headers `newUploadHandler` sets first. -/
def newUploadCors : List (String × String) :=
  [("Access-Control-Allow-Origin", "*"), ("Access-Control-Allow-Methods", "POST"),
    ("Access-Control-Allow-Headers", "Content-Type")]

/-- What `newUploadHandler` reads of the parsed form: the entries of
`r.MultipartForm.File["file"]` if present, each a file name with the result of
`handler.Open()` and then of `io.ReadAll(file)`, and the form values. -/
structure NewUploadForm where
  files : Option (List (String × Except String (Except String Bytes)))
  jid : String
  caption : String

/-- What `newUploadHandler` reads of its request. -/
structure NewUploadRequest where
  Method : String
  form : Except String NewUploadForm

/-- The `for` loop of `newUploadHandler` over the files still to handle, with
one schedule per file, and what follows it; `none` while a bulk sender has not
returned. -/
def newUploadLoop (json : Json) (env : Env) (JID captionMsg : String) :
    List (String × Except String (Except String Bytes)) → List (List Nat) → List Message →
    Option Response
  | [], _, resp =>
    match json.MarshalMessages resp with
    | .error _ => some (httpError newUploadCors "Error encoding JSON" 500)
    | .ok jsonResponse =>
      some ⟨200, newUploadCors ++ [("Content-Type", "application/json")], jsonResponse⟩
  | (fileName, opened) :: rest, scheds, resp =>
    match opened with
    | .error err => some (handleError newUploadCors 500 "Failed to open file" err).1
    | .ok read =>
      match read with
      | .error err => some (handleError newUploadCors 500 "Failed to read file data" err).1
      | .ok data =>
        match validateStringArrayAsStringArray JID with
        | .error err =>
          some (handleError newUploadCors 500 "Something went wrong with parameter jid" err).1
        | .ok sliceJID =>
          match newUploadHandlerSend env sliceJID fileName data captionMsg (scheds.headD []) with
          | none => none
          | some (_, some err) =>
            some (handleError newUploadCors 500 "Failed to handle file upload" err).1
          | some (uploadResp, none) =>
            newUploadLoop json env JID captionMsg rest scheds.tail (resp ++ uploadResp)

/-- The function `newUploadHandler`: the response written, with one schedule
per file for the bulk senders. -/
def newUploadHandler (json : Json) (env : Env) (r : NewUploadRequest)
    (scheds : List (List Nat)) : Option Response :=
  if r.Method = "OPTIONS" then some ⟨200, newUploadCors, ""⟩
  else
    match r.form with
    | .error err => some (handleError newUploadCors 400 "Failed to parse multipart form" err).1
    | .ok form =>
      match form.files with
      | none => some (handleError newUploadCors 400 "No files found in the request" "<nil>").1
      | some [] => some (handleError newUploadCors 400 "No files found in the request" "<nil>").1
      | some (file :: files) =>
        newUploadLoop json env form.jid form.caption (file :: files) scheds []

/-- The sample `strconv.Atoi`, for the two user ids used below. -/
def sampleAtoi (s : String) : Except String Int :=
  if s = "7" then .ok 7 else if s = "0" then .ok 0 else .error "invalid syntax"

/-- The first bytes of a PNG file. -/
def pngData : Bytes :=
  [137, 80, 78, 71, 13, 10, 26, 10, 0, 0, 0, 13]

/-- The first bytes of a PDF file. -/
def pdfData : Bytes :=
  [37, 80, 68, 70, 45, 49, 46, 52]

/-! ## The reader goroutine of `main` -/

/-- One round of the goroutine of `main` that scans standard input: the line
`text` is trimmed with `strings.TrimSpace` and sent on `input` if it is not
empty; `none` when nothing is sent. -/
def stdinReader (text : String) : Option String :=
  if (TrimSpace text).length > 0 then some (TrimSpace text) else none

/-- The line `text` typed at the terminal, in the pairing step relation: the
reader goroutine trims it and, unless nothing is left, the loop of `main`
receives what it sent; `none` when the loop cannot take that step. -/
def pairStepTyped (env : Env) (s : PairState) (text : String) : Option PairState :=
  match stdinReader text with
  | none => some s
  | some line => pairStep env s (PairLabel.termLine line)

/-! ## Lemmas on the bulk media senders -/

theorem countP_set_of_getElem? {α : Type} (p : α → Bool) (l : List α) (i : Nat) (a b : α)
    (h : l[i]? = some a) :
    (l.set i b).countP p + (if p a then 1 else 0) = l.countP p + (if p b then 1 else 0) := by
  induction l generalizing i with
  | nil => simp at h
  | cons x xs ih =>
    cases i with
    | zero =>
      simp at h
      subst h
      simp [List.countP_cons]
      omega
    | succ n =>
      simp at h
      have := ih n h
      simp [List.countP_cons]
      omega

theorem bulkStep_cases (env : Env) (k : BulkKind) (JIDS : List String) (data : Bytes)
    (captionMsg : String) (s : BulkState) (i : Nat) :
    (bulkStep env k JIDS data captionMsg s i = s ∧
      (JIDS[i]? = none ∨ s.tasks[i]? = none ∨ s.tasks[i]? = some BulkTask.done)) ∨
    ∃ jid t t2 ms es tr, JIDS[i]? = some jid ∧ s.tasks[i]? = some t ∧
      Move env k data captionMsg i jid t t2 ms es tr ∧
      bulkStep env k JIDS data captionMsg s i =
        ⟨s.tasks.set i t2, s.sliceM ++ ms, s.errs ++ es, s.trace ++ tr⟩ := by
  cases hJ : JIDS[i]? with
  | none => exact Or.inl ⟨by simp [bulkStep, hJ], Or.inl rfl⟩
  | some jid =>
    cases ht : s.tasks[i]? with
    | none => exact Or.inl ⟨by simp [bulkStep, hJ, ht], Or.inr (Or.inl rfl)⟩
    | some t =>
      cases t with
      | start =>
        cases hp : env.parseJID jid with
        | none =>
          exact Or.inr ⟨jid, _, _, _, _, _, rfl, rfl, Move.parseFail hp,
            by simp [bulkStep, hJ, ht, hp]⟩
        | some r =>
          exact Or.inr ⟨jid, _, _, _, _, _, rfl, rfl, Move.parseOk r hp,
            by simp [bulkStep, hJ, ht, hp]⟩
      | parsed r =>
        cases hu : env.Upload i data k.mediaType with
        | error e =>
          exact Or.inr ⟨jid, _, _, _, _, _, rfl, rfl, Move.uploadFail r e hu,
            by simp [bulkStep, hJ, ht, hu]⟩
        | ok up =>
          exact Or.inr ⟨jid, _, _, _, _, _, rfl, rfl, Move.uploadOk r up hu,
            by simp [bulkStep, hJ, ht, hu]⟩
      | uploaded r up =>
        cases hs : env.SendMessage i r (k.createMessage env up data captionMsg) with
        | error e =>
          exact Or.inr ⟨jid, _, _, _, _, _, rfl, rfl, Move.sendFail r up e hs,
            by simp [bulkStep, hJ, ht, hs]⟩
        | ok resp =>
          exact Or.inr ⟨jid, _, _, _, _, _, rfl, rfl, Move.sendOk r up resp hs,
            by simp [bulkStep, hJ, ht, hs]⟩
      | sent r msg resp =>
        exact Or.inr ⟨jid, _, _, _, _, _, rfl, rfl, Move.logSave r msg resp,
          by simp [bulkStep, hJ, ht]⟩
      | storing m =>
        exact Or.inr ⟨jid, _, _, _, _, _, rfl, rfl, Move.store m, by simp [bulkStep, hJ, ht]⟩
      | failing err =>
        exact Or.inr ⟨jid, _, _, _, _, _, rfl, rfl, Move.fail err, by simp [bulkStep, hJ, ht]⟩
      | done => exact Or.inl ⟨by simp [bulkStep, hJ, ht], Or.inr (Or.inr rfl)⟩

theorem move_count {env : Env} {k : BulkKind} {data : Bytes} {captionMsg : String}
    {i : Nat} {jid : String} {t t2 : BulkTask} {ms : List Message} {es : List String}
    {tr : List Effect} (hm : Move env k data captionMsg i jid t t2 ms es tr) :
    t.isDone = false ∧ ms.length + es.length = (if t2.isDone then 1 else 0) := by
  cases hm <;> simp [BulkTask.isDone]

theorem move_ok {env : Env} {k : BulkKind} {data : Bytes} {captionMsg : String}
    {i : Nat} {jid : String} {t t2 : BulkTask} {ms : List Message} {es : List String}
    {tr : List Effect} (hm : Move env k data captionMsg i jid t t2 ms es tr)
    (h : TaskOk env k data captionMsg i jid t) : TaskOk env k data captionMsg i jid t2 := by
  cases hm with
  | parseFail hp => simp [TaskOk, bulkOutcome, hp]
  | parseOk r hp => exact hp
  | uploadFail r e hu =>
    simp only [TaskOk] at h
    simp [TaskOk, bulkOutcome, h, hu]
  | uploadOk r up hu => exact ⟨h, hu⟩
  | sendFail r up e hs =>
    obtain ⟨h1, h2⟩ := h
    simp [TaskOk, bulkOutcome, h1, h2, hs]
  | sendOk r up resp hs =>
    obtain ⟨h1, h2⟩ := h
    exact ⟨h1, by simp [bulkOutcome, h1, h2, hs]⟩
  | logSave r msg resp => exact h.2
  | store m => trivial
  | fail err => trivial

theorem move_appended {env : Env} {k : BulkKind} {data : Bytes} {captionMsg : String}
    {i : Nat} {jid : String} {t t2 : BulkTask} {ms : List Message} {es : List String}
    {tr : List Effect} (hm : Move env k data captionMsg i jid t t2 ms es tr)
    (h : TaskOk env k data captionMsg i jid t) :
    (∀ e ∈ es, t2 = BulkTask.done ∧ bulkOutcome env k data captionMsg i jid = .error e) ∧
    (∀ m ∈ ms, t2 = BulkTask.done ∧ bulkOutcome env k data captionMsg i jid = .ok m) ∧
    (t2 = BulkTask.done → (∀ e, bulkOutcome env k data captionMsg i jid = .error e → e ∈ es) ∧
      (∀ m, bulkOutcome env k data captionMsg i jid = .ok m → m ∈ ms)) := by
  cases hm <;> simp_all [TaskOk]

theorem move_calls {env : Env} {k : BulkKind} {data : Bytes} {captionMsg : String}
    {i : Nat} {jid : String} {t t2 : BulkTask} {ms : List Message} {es : List String}
    {tr : List Effect} (hm : Move env k data captionMsg i jid t t2 ms es tr)
    (h : TaskOk env k data captionMsg i jid t) :
    (∀ ev ∈ tr, ∀ j, ev.task = some j → j = i ∧ ∃ r, env.parseJID jid = some r) ∧
    (∀ j r msg, Effect.SendMessage j r msg ∈ tr → j = i ∧ env.parseJID jid = some r) := by
  cases hm <;> cases k <;> simp_all [TaskOk, Effect.task, BulkKind.save]

theorem move_sends {env : Env} {k : BulkKind} {data : Bytes} {captionMsg : String}
    {i : Nat} {jid : String} {t t2 : BulkTask} {ms : List Message} {es : List String}
    {tr : List Effect} (hm : Move env k data captionMsg i jid t t2 ms es tr) (j : Nat) :
    tr.countP (Effect.isSendBy j) ≤ 1 ∧
    (j ≠ i → tr.countP (Effect.isSendBy j) = 0) ∧
    (t.beforeSend = false → tr.countP (Effect.isSendBy j) = 0 ∧ t2.beforeSend = false) ∧
    (t2.beforeSend = true → tr.countP (Effect.isSendBy j) = 0) := by
  cases hm <;> cases k <;>
    simp [BulkTask.beforeSend, Effect.isSendBy, BulkKind.save, List.countP_cons] <;>
    (try split) <;> simp_all

theorem getElem?_set_of {α : Type} {l : List α} {i : Nat} {a b : α} (h : l[i]? = some a)
    (j : Nat) : (l.set i b)[j]? = if j = i then some b else l[j]? := by
  have hi : i < l.length := by
    by_contra hc
    rw [List.getElem?_eq_none (by omega)] at h
    cases h
  rw [List.getElem?_set]
  by_cases hij : i = j
  · subst hij
    simp [hi]
  · have : ¬ j = i := fun h => hij h.symm
    simp [hij, this]

theorem bulkInv_init (env : Env) (k : BulkKind) (JIDS : List String) (data : Bytes)
    (captionMsg : String) : BulkInv env k JIDS data captionMsg (bulkInit JIDS) := by
  have hc : List.countP BulkTask.isDone (JIDS.map (fun _ => BulkTask.start)) = 0 := by
    rw [List.countP_eq_zero]
    intro a ha
    simp only [List.mem_map] at ha
    obtain ⟨_, _, rfl⟩ := ha
    simp [BulkTask.isDone]
  refine ⟨by simp [bulkInit], hc.symm, ?_, ?_, ?_, ?_, ?_, ?_, ?_, ?_⟩
  · intro i t jid ht _
    simp only [bulkInit, List.getElem?_map, Option.map_eq_some'] at ht
    obtain ⟨_, _, rfl⟩ := ht
    trivial
  · intro e he
    simp [bulkInit] at he
  · intro m hm
    simp [bulkInit] at hm
  · intro i jid e ht
    simp only [bulkInit, List.getElem?_map, Option.map_eq_some'] at ht
    obtain ⟨_, _, h⟩ := ht
    cases h
  · intro i jid e ht
    simp only [bulkInit, List.getElem?_map, Option.map_eq_some'] at ht
    obtain ⟨_, _, h⟩ := ht
    cases h
  · intro ev hev
    simp [bulkInit] at hev
  · intro j r msg hev
    simp [bulkInit] at hev
  · intro j
    simp [bulkInit]

theorem bulkInv_step (env : Env) (k : BulkKind) (JIDS : List String) (data : Bytes)
    (captionMsg : String) (s : BulkState) (i : Nat)
    (h : BulkInv env k JIDS data captionMsg s) :
    BulkInv env k JIDS data captionMsg (bulkStep env k JIDS data captionMsg s i) := by
  rcases bulkStep_cases env k JIDS data captionMsg s i with
    ⟨he, _⟩ | ⟨jid, t, t2, ms, es, tr, hJ, ht, hm, he⟩
  · rw [he]
    exact h
  rw [he]
  have hok := h.ok i t jid ht hJ
  have hok2 := move_ok hm hok
  obtain ⟨hapE, hapM, hapD⟩ := move_appended hm hok
  obtain ⟨hcall, hsend⟩ := move_calls hm hok
  have hget := fun j => @getElem?_set_of _ s.tasks i t t2 ht j
  have hnd := (move_count hm).1
  refine ⟨?_, ?_, ?_, ?_, ?_, ?_, ?_, ?_, ?_, ?_⟩
  · simp [h.len]
  · have hc := countP_set_of_getElem? BulkTask.isDone s.tasks i t t2 ht
    have := move_count hm
    have hlen := h.count
    simp only [List.length_append]
    rw [this.1] at hc
    simp at hc
    omega
  · intro j t3 jid3 hj hJ3
    simp only [hget] at hj
    split at hj
    · rename_i hji
      subst hji
      cases hj
      rw [hJ] at hJ3
      cases hJ3
      exact hok2
    · exact h.ok j t3 jid3 hj hJ3
  · intro e hmem
    rcases List.mem_append.1 hmem with hmem | hmem
    · obtain ⟨j, jid3, hJ3, hj, ho⟩ := h.errsFrom e hmem
      refine ⟨j, jid3, hJ3, ?_, ho⟩
      rw [hget]
      split
      · rename_i hji
        subst hji
        rw [ht] at hj
        cases hj
        simp [BulkTask.isDone] at hnd
      · exact hj
    · exact ⟨i, jid, hJ, by rw [hget]; simp [(hapE e hmem).1], (hapE e hmem).2⟩
  · intro m hmem
    rcases List.mem_append.1 hmem with hmem | hmem
    · obtain ⟨j, jid3, hJ3, hj, ho⟩ := h.msgsFrom m hmem
      refine ⟨j, jid3, hJ3, ?_, ho⟩
      rw [hget]
      split
      · rename_i hji
        subst hji
        rw [ht] at hj
        cases hj
        simp [BulkTask.isDone] at hnd
      · exact hj
    · exact ⟨i, jid, hJ, by rw [hget]; simp [(hapM m hmem).1], (hapM m hmem).2⟩
  · intro j jid3 e hj hJ3 ho
    rw [hget] at hj
    split at hj
    · rename_i hji
      subst hji
      cases hj
      rw [hJ] at hJ3
      cases hJ3
      exact List.mem_append_right _ ((hapD rfl).1 e ho)
    · exact List.mem_append_left _ (h.errsDone j jid3 e hj hJ3 ho)
  · intro j jid3 m hj hJ3 ho
    rw [hget] at hj
    split at hj
    · rename_i hji
      subst hji
      cases hj
      rw [hJ] at hJ3
      cases hJ3
      exact List.mem_append_right _ ((hapD rfl).2 m ho)
    · exact List.mem_append_left _ (h.msgsDone j jid3 m hj hJ3 ho)
  · intro ev hmem j hj
    rcases List.mem_append.1 hmem with hmem | hmem
    · exact h.calls ev hmem j hj
    · obtain ⟨hji, r, hr⟩ := hcall ev hmem j hj
      subst hji
      exact ⟨jid, r, hJ, hr⟩
  · intro j r msg hmem
    rcases List.mem_append.1 hmem with hmem | hmem
    · exact h.sendTo j r msg hmem
    · obtain ⟨hji, hr⟩ := hsend j r msg hmem
      subst hji
      exact ⟨jid, hJ, hr⟩
  · intro j
    obtain ⟨h1, h2, h3, h4⟩ := move_sends hm j
    obtain ⟨g1, g2⟩ := h.sendOnce j
    simp only [List.countP_append]
    by_cases hji : j = i
    · subst hji
      have g3 := g2 t ht
      refine ⟨?_, ?_⟩
      · cases hb : t.beforeSend
        · have := (h3 hb).1
          omega
        · have := g3 hb
          omega
      · intro t3 hj hb3
        rw [hget] at hj
        simp at hj
        subst hj
        have := h4 hb3
        cases hb : t.beforeSend
        · have := (h3 hb).2
          rw [this] at hb3
          cases hb3
        · have := g3 hb
          omega
    · have := h2 hji
      refine ⟨by omega, ?_⟩
      intro t3 hj hb3
      rw [hget] at hj
      simp [hji] at hj
      have := g2 t3 hj hb3
      omega

theorem bulkInv_run (env : Env) (k : BulkKind) (JIDS : List String) (data : Bytes)
    (captionMsg : String) (sched : List Nat) :
    BulkInv env k JIDS data captionMsg (bulkRun env k JIDS data captionMsg sched) := by
  unfold bulkRun
  have : ∀ s, BulkInv env k JIDS data captionMsg s →
      BulkInv env k JIDS data captionMsg
        (sched.foldl (bulkStep env k JIDS data captionMsg) s) := by
    induction sched with
    | nil => intro s hs; exact hs
    | cons a l ih =>
      intro s hs
      exact ih _ (bulkInv_step env k JIDS data captionMsg s a hs)
  exact this _ (bulkInv_init env k JIDS data captionMsg)

theorem move_remaining {env : Env} {k : BulkKind} {data : Bytes} {captionMsg : String}
    {i : Nat} {jid : String} {t t2 : BulkTask} {ms : List Message} {es : List String}
    {tr : List Effect} (hm : Move env k data captionMsg i jid t t2 ms es tr) :
    t2.remaining < t.remaining := by
  cases hm <;> simp [BulkTask.remaining]

theorem bulkStep_self (env : Env) (k : BulkKind) (JIDS : List String) (data : Bytes)
    (captionMsg : String) (s : BulkState) (i : Nat) (jid : String) (t : BulkTask)
    (hJ : JIDS[i]? = some jid) (ht : s.tasks[i]? = some t) :
    ∃ t2, (bulkStep env k JIDS data captionMsg s i).tasks[i]? = some t2 ∧
      t2.remaining ≤ t.remaining - 1 := by
  rcases bulkStep_cases env k JIDS data captionMsg s i with
    ⟨he, hr⟩ | ⟨jid, t, t2, ms, es, tr, _, ht2, hm, he⟩
  · rw [hJ, ht] at hr
    simp at hr
    subst hr
    exact ⟨BulkTask.done, by rw [he, ht], by simp [BulkTask.remaining]⟩
  · rw [ht] at ht2
    cases ht2
    refine ⟨t2, ?_, ?_⟩
    · rw [he]
      simp [getElem?_set_of ht]
    · have := move_remaining hm
      omega

theorem bulkStep_other (env : Env) (k : BulkKind) (JIDS : List String) (data : Bytes)
    (captionMsg : String) (s : BulkState) (i j : Nat) (hij : j ≠ i) :
    (bulkStep env k JIDS data captionMsg s i).tasks[j]? = s.tasks[j]? := by
  rcases bulkStep_cases env k JIDS data captionMsg s i with
    ⟨he, _⟩ | ⟨jid, t, t2, ms, es, tr, _, ht, _, he⟩
  · rw [he]
  · rw [he]
    simp [getElem?_set_of ht, hij]

theorem bulkRun_remaining (env : Env) (k : BulkKind) (JIDS : List String) (data : Bytes)
    (captionMsg : String) (sched : List Nat) (j : Nat) (jid : String)
    (hJ : JIDS[j]? = some jid) :
    ∀ (s : BulkState) (t : BulkTask), s.tasks[j]? = some t →
      ∃ t2, (sched.foldl (bulkStep env k JIDS data captionMsg) s).tasks[j]? = some t2 ∧
        t2.remaining ≤ t.remaining - sched.count j := by
  induction sched with
  | nil =>
    intro s t ht
    exact ⟨t, ht, by simp⟩
  | cons a l ih =>
    intro s t ht
    by_cases haj : a = j
    · subst haj
      obtain ⟨t1, ht1, hr1⟩ := bulkStep_self env k JIDS data captionMsg s a jid t hJ ht
      obtain ⟨t2, ht2, hr2⟩ := ih _ t1 ht1
      refine ⟨t2, ht2, ?_⟩
      simp only [List.count_cons_self]
      omega
    · have hja : j ≠ a := fun h => haj h.symm
      have ht1 := bulkStep_other env k JIDS data captionMsg s a j hja
      rw [ht] at ht1
      obtain ⟨t2, ht2, hr2⟩ := ih _ t ht1
      refine ⟨t2, ht2, ?_⟩
      rw [List.count_cons_of_ne hja]
      exact hr2

theorem isDone_of_remaining {t : BulkTask} (h : t.remaining = 0) : t.isDone = true := by
  cases t <;> simp_all [BulkTask.remaining, BulkTask.isDone]

/-- Under a fair schedule every goroutine has returned, so `wg.Wait()` returns. -/
theorem bulkRun_allDone (env : Env) (k : BulkKind) (JIDS : List String) (data : Bytes)
    (captionMsg : String) (sched : List Nat) (hf : Fair JIDS.length sched) :
    (bulkRun env k JIDS data captionMsg sched).tasks.all BulkTask.isDone = true := by
  have hinv := bulkInv_run env k JIDS data captionMsg sched
  rw [List.all_eq_true]
  intro t ht
  obtain ⟨j, hj, hget⟩ := List.getElem_of_mem ht
  have hjN : j < JIDS.length := by rw [← hinv.len]; exact hj
  have hJ : JIDS[j]? = some JIDS[j] := List.getElem?_eq_getElem hjN
  have h0 : (bulkInit JIDS).tasks[j]? = some BulkTask.start := by
    simp only [bulkInit, List.getElem?_map, hJ, Option.map_some']
  obtain ⟨t2, ht2, hr⟩ := bulkRun_remaining env k JIDS data captionMsg sched j _ hJ _ _ h0
  have hc := hf j hjN
  have heq : (bulkRun env k JIDS data captionMsg sched).tasks[j]? = some t := by
    rw [List.getElem?_eq_getElem hj, hget]
  unfold bulkRun at heq
  rw [ht2] at heq
  cases heq
  apply isDone_of_remaining
  have h5 : BulkTask.start.remaining = 5 := rfl
  omega

theorem bulkReturn_cases (s : BulkState) (r : List Message × Option String)
    (h : bulkReturn s = some r) :
    s.tasks.all BulkTask.isDone = true ∧
    ((s.errs = [] ∧ r = (s.sliceM, none)) ∨
      ∃ err rest, s.errs = err :: rest ∧ r = ([], some err)) := by
  unfold bulkReturn at h
  split at h
  · rename_i hall
    refine ⟨hall, ?_⟩
    split at h
    · rename_i err rest herrs
      cases h
      exact Or.inr ⟨err, rest, herrs, rfl⟩
    · rename_i herrs
      cases h
      exact Or.inl ⟨herrs, rfl⟩
  · cases h

theorem bulkReturn_isSome (s : BulkState) (h : s.tasks.all BulkTask.isDone = true) :
    (bulkReturn s).isSome = true := by
  unfold bulkReturn
  rw [if_pos h]
  split <;> rfl

theorem bulk_count_of_allDone (env : Env) (k : BulkKind) (JIDS : List String) (data : Bytes)
    (captionMsg : String) (sched : List Nat)
    (h : (bulkRun env k JIDS data captionMsg sched).tasks.all BulkTask.isDone = true) :
    (bulkRun env k JIDS data captionMsg sched).sliceM.length +
      (bulkRun env k JIDS data captionMsg sched).errs.length = JIDS.length := by
  have hinv := bulkInv_run env k JIDS data captionMsg sched
  rw [hinv.count, ← hinv.len, List.countP_eq_length]
  intro t ht
  exact (List.all_eq_true.1 h) t ht

theorem getElem?_done_of_all {tasks : List BulkTask} {JIDS : List String} {i : Nat}
    {jid : String} (hall : tasks.all BulkTask.isDone = true) (hlen : tasks.length = JIDS.length)
    (hJ : JIDS[i]? = some jid) : tasks[i]? = some BulkTask.done := by
  have hi : i < tasks.length := by
    rw [hlen]
    by_contra hc
    rw [List.getElem?_eq_none (by omega)] at hJ
    cases hJ
  rw [List.getElem?_eq_getElem hi]
  have := (List.all_eq_true.1 hall) tasks[i] (List.getElem_mem hi)
  cases ht : tasks[i] <;> simp_all [BulkTask.isDone]

/-- After the join: a failed recipient has its error in `errs`, a successful
one its Message in `sliceM`, and `errs` is empty exactly when nobody failed. -/
theorem bulk_recorded_of_allDone (env : Env) (k : BulkKind) (JIDS : List String)
    (data : Bytes) (captionMsg : String) (sched : List Nat)
    (hall : (bulkRun env k JIDS data captionMsg sched).tasks.all BulkTask.isDone = true) :
    (∀ i jid e, JIDS[i]? = some jid → bulkOutcome env k data captionMsg i jid = .error e →
      e ∈ (bulkRun env k JIDS data captionMsg sched).errs) ∧
    (∀ i jid m, JIDS[i]? = some jid → bulkOutcome env k data captionMsg i jid = .ok m →
      m ∈ (bulkRun env k JIDS data captionMsg sched).sliceM) ∧
    ((bulkRun env k JIDS data captionMsg sched).errs = [] ↔
      ¬ ∃ i jid e, JIDS[i]? = some jid ∧ bulkOutcome env k data captionMsg i jid = .error e) := by
  have hinv := bulkInv_run env k JIDS data captionMsg sched
  have hE : ∀ i jid e, JIDS[i]? = some jid →
      bulkOutcome env k data captionMsg i jid = .error e →
      e ∈ (bulkRun env k JIDS data captionMsg sched).errs := fun i jid e hJ ho =>
    hinv.errsDone i jid e (getElem?_done_of_all hall hinv.len hJ) hJ ho
  refine ⟨hE, ?_, ?_⟩
  · intro i jid m hJ ho
    exact hinv.msgsDone i jid m (getElem?_done_of_all hall hinv.len hJ) hJ ho
  · constructor
    · rintro hnil ⟨i, jid, e, hJ, ho⟩
      have := hE i jid e hJ ho
      rw [hnil] at this
      cases this
    · intro hno
      cases herrs : (bulkRun env k JIDS data captionMsg sched).errs with
      | nil => rfl
      | cons e rest =>
        exfalso
        obtain ⟨i, jid, hJ, _, ho⟩ := hinv.errsFrom e (by rw [herrs]; exact List.mem_cons_self _ _)
        exact hno ⟨i, jid, e, hJ, ho⟩

/-! ## Lemmas on the bulk text sender -/

theorem textStep_cases (env : Env) (textMsg : String) (jids : List String) (s : TextState)
    (i : Nat) :
    textStep env textMsg jids s i = s ∨
    ∃ jid t t2 tr, jids[i]? = some jid ∧ s.tasks[i]? = some t ∧
      TextMove env textMsg i jid t t2 tr ∧
      textStep env textMsg jids s i = ⟨s.tasks.set i t2, s.trace ++ tr⟩ := by
  cases hJ : jids[i]? with
  | none => exact Or.inl (by simp [textStep, hJ])
  | some jid =>
    cases ht : s.tasks[i]? with
    | none => exact Or.inl (by simp [textStep, hJ, ht])
    | some t =>
      cases t with
      | start =>
        cases hp : env.parseJID jid with
        | none =>
          exact Or.inr ⟨jid, _, _, _, rfl, rfl, TextMove.parseFail hp,
            by simp [textStep, hJ, ht, hp]⟩
        | some r =>
          exact Or.inr ⟨jid, _, _, _, rfl, rfl, TextMove.parseOk r hp,
            by simp [textStep, hJ, ht, hp]⟩
      | parsed r =>
        exact Or.inr ⟨jid, _, _, _, rfl, rfl, TextMove.announce r, by simp [textStep, hJ, ht]⟩
      | announced r =>
        exact Or.inr ⟨jid, _, _, _, rfl, rfl, TextMove.send r, by simp [textStep, hJ, ht]⟩
      | replied res =>
        cases res with
        | error e =>
          exact Or.inr ⟨jid, _, _, _, rfl, rfl, TextMove.logError e,
            by simp [textStep, hJ, ht]⟩
        | ok resp =>
          exact Or.inr ⟨jid, _, _, _, rfl, rfl, TextMove.logSent resp,
            by simp [textStep, hJ, ht]⟩
      | done => exact Or.inl (by simp [textStep, hJ, ht])

theorem textMove_ok {env : Env} {textMsg : String} {i : Nat} {jid : String}
    {t t2 : TextTask} {tr : List Effect} (hm : TextMove env textMsg i jid t t2 tr)
    (h : TextTaskOk env jid t) : TextTaskOk env jid t2 := by
  cases hm <;> simp_all [TextTaskOk]

theorem textMove_calls {env : Env} {textMsg : String} {i : Nat} {jid : String}
    {t t2 : TextTask} {tr : List Effect} (hm : TextMove env textMsg i jid t t2 tr)
    (h : TextTaskOk env jid t) :
    (∀ ev ∈ tr, ∀ j, ev.task = some j → j = i ∧ ∃ r, env.parseJID jid = some r) ∧
    (∀ j r msg, Effect.SendMessage j r msg ∈ tr → j = i ∧ env.parseJID jid = some r) := by
  cases hm <;> simp_all [TextTaskOk, Effect.task]

theorem textMove_sends {env : Env} {textMsg : String} {i : Nat} {jid : String}
    {t t2 : TextTask} {tr : List Effect} (hm : TextMove env textMsg i jid t t2 tr) (j : Nat) :
    tr.countP (Effect.isSendBy j) ≤ 1 ∧
    (j ≠ i → tr.countP (Effect.isSendBy j) = 0) ∧
    (t.beforeSend = false → tr.countP (Effect.isSendBy j) = 0 ∧ t2.beforeSend = false) ∧
    (t2.beforeSend = true → tr.countP (Effect.isSendBy j) = 0) := by
  cases hm <;> simp [TextTask.beforeSend, Effect.isSendBy, List.countP_cons]
  refine ⟨by split <;> omega, fun h1 h2 => h1 h2.symm⟩

theorem textInv_init (env : Env) (jids : List String) : TextInv env jids (textInit jids) := by
  refine ⟨by simp [textInit], ?_, ?_, ?_, ?_⟩
  · intro i t jid ht _
    simp only [textInit, List.getElem?_map, Option.map_eq_some'] at ht
    obtain ⟨_, _, rfl⟩ := ht
    trivial
  · intro ev hev
    simp [textInit] at hev
  · intro j r msg hev
    simp [textInit] at hev
  · intro j
    simp [textInit]

theorem textInv_step (env : Env) (textMsg : String) (jids : List String) (s : TextState)
    (i : Nat) (h : TextInv env jids s) : TextInv env jids (textStep env textMsg jids s i) := by
  rcases textStep_cases env textMsg jids s i with he | ⟨jid, t, t2, tr, hJ, ht, hm, he⟩
  · rw [he]
    exact h
  rw [he]
  have hok := h.ok i t jid ht hJ
  obtain ⟨hcall, hsend⟩ := textMove_calls hm hok
  have hget := fun j => @getElem?_set_of _ s.tasks i t t2 ht j
  refine ⟨by simp [h.len], ?_, ?_, ?_, ?_⟩
  · intro j t3 jid3 hj hJ3
    simp only [hget] at hj
    split at hj
    · rename_i hji
      subst hji
      cases hj
      rw [hJ] at hJ3
      cases hJ3
      exact textMove_ok hm hok
    · exact h.ok j t3 jid3 hj hJ3
  · intro ev hmem j hj
    rcases List.mem_append.1 hmem with hmem | hmem
    · exact h.calls ev hmem j hj
    · obtain ⟨hji, r, hr⟩ := hcall ev hmem j hj
      subst hji
      exact ⟨jid, r, hJ, hr⟩
  · intro j r msg hmem
    rcases List.mem_append.1 hmem with hmem | hmem
    · exact h.sendTo j r msg hmem
    · obtain ⟨hji, hr⟩ := hsend j r msg hmem
      subst hji
      exact ⟨jid, hJ, hr⟩
  · intro j
    obtain ⟨h1, h2, h3, h4⟩ := textMove_sends hm j
    obtain ⟨g1, g2⟩ := h.sendOnce j
    simp only [List.countP_append]
    by_cases hji : j = i
    · subst hji
      have g3 := g2 t ht
      refine ⟨?_, ?_⟩
      · cases hb : t.beforeSend
        · have := (h3 hb).1
          omega
        · have := g3 hb
          omega
      · intro t3 hj hb3
        rw [hget] at hj
        simp at hj
        subst hj
        have := h4 hb3
        cases hb : t.beforeSend
        · have := (h3 hb).2
          rw [this] at hb3
          cases hb3
        · have := g3 hb
          omega
    · have := h2 hji
      refine ⟨by omega, ?_⟩
      intro t3 hj hb3
      rw [hget] at hj
      simp [hji] at hj
      have := g2 t3 hj hb3
      omega

theorem textInv_run (env : Env) (textMsg : String) (jids : List String) (sched : List Nat) :
    TextInv env jids (textRun env textMsg jids sched) := by
  unfold textRun
  have : ∀ s, TextInv env jids s →
      TextInv env jids (sched.foldl (textStep env textMsg jids) s) := by
    induction sched with
    | nil => intro s hs; exact hs
    | cons a l ih =>
      intro s hs
      exact ih _ (textInv_step env textMsg jids s a hs)
  exact this _ (textInv_init env jids)

/-- Running on only appends to `errs`. -/
theorem bulk_errs_append (env : Env) (k : BulkKind) (JIDS : List String) (data : Bytes)
    (captionMsg : String) (sched : List Nat) :
    ∀ s : BulkState, ∃ more,
      (sched.foldl (bulkStep env k JIDS data captionMsg) s).errs = s.errs ++ more := by
  induction sched with
  | nil => intro s; exact ⟨[], by simp⟩
  | cons a l ih =>
    intro s
    have hstep : ∃ es, (bulkStep env k JIDS data captionMsg s a).errs = s.errs ++ es := by
      rcases bulkStep_cases env k JIDS data captionMsg s a with
        ⟨he, _⟩ | ⟨jid, t, t2, ms, es, tr, _, _, _, he⟩
      · exact ⟨[], by rw [he]; simp⟩
      · exact ⟨es, by rw [he]⟩
    obtain ⟨es, hes⟩ := hstep
    obtain ⟨more, hmore⟩ := ih (bulkStep env k JIDS data captionMsg s a)
    exact ⟨es ++ more, by simp only [List.foldl_cons]; rw [hmore, hes, List.append_assoc]⟩

/-! ## Counting send attempts -/

theorem length_eq_count_add_filter (l : List Nat) (n : Nat) :
    l.length = l.count n + (l.filter (fun j => !decide (j = n))).length := by
  induction l with
  | nil => simp
  | cons x xs ih =>
    by_cases hx : x = n
    · subst hx
      simp [List.filter_cons]
      omega
    · have hx2 : ¬ n = x := fun h => hx h.symm
      rw [List.count_cons_of_ne hx2]
      simp [List.filter_cons, hx]
      omega

theorem length_le_countP_of_nodup {α : Type} (p : α → Bool) (L : List α) :
    ∀ l : List Nat, l.Nodup → (∀ j ∈ l, ∃ a, L[j]? = some a ∧ p a = true) →
      l.length ≤ L.countP p := by
  induction L using List.reverseRecOn with
  | nil =>
    intro l _ hl
    cases l with
    | nil => simp
    | cons j l =>
      obtain ⟨a, ha, _⟩ := hl j (List.mem_cons_self _ _)
      simp at ha
  | append_singleton L a ih =>
    intro l hnd hl
    have hsplit := length_eq_count_add_filter l L.length
    have hrest : (l.filter (fun j => !decide (j = L.length))).length ≤ L.countP p := by
      apply ih
      · exact hnd.filter _
      · intro j hj
        rw [List.mem_filter] at hj
        obtain ⟨hjl, hne⟩ := hj
        simp at hne
        obtain ⟨b, hb, hpb⟩ := hl j hjl
        have hjlt : j < L.length := by
          have : j < (L ++ [a]).length := by
            by_contra hc
            rw [List.getElem?_eq_none (by omega)] at hb
            cases hb
          simp at this
          omega
        rw [List.getElem?_append_left hjlt] at hb
        exact ⟨b, hb, hpb⟩
    have hcount := List.nodup_iff_count_le_one.1 hnd L.length
    rw [List.countP_append]
    by_cases hmem : L.length ∈ l
    · obtain ⟨b, hb, hpb⟩ := hl _ hmem
      simp at hb
      subst hb
      simp only [List.countP_cons, List.countP_nil, hpb, if_true]
      omega
    · have h0 : l.count L.length = 0 := List.count_eq_zero_of_not_mem hmem
      omega

theorem senderTo_length (r : JID) (tr : List Effect) :
    (tr.filterMap (Effect.senderTo r)).length = tr.countP (Effect.isSendTo r) := by
  induction tr with
  | nil => rfl
  | cons ev tr ih =>
    cases ev with
    | SendMessage j r2 msg =>
      by_cases hr : r2 = r
      · simp [List.filterMap_cons, Effect.senderTo, Effect.isSendTo, hr, ih]
      · simp [List.filterMap_cons, Effect.senderTo, Effect.isSendTo, hr, ih]
    | _ => simp [List.filterMap_cons, Effect.senderTo, Effect.isSendTo, ih]

theorem senderTo_count (r : JID) (tr : List Effect) (j : Nat) :
    (tr.filterMap (Effect.senderTo r)).count j ≤ tr.countP (Effect.isSendBy j) := by
  induction tr with
  | nil => simp
  | cons ev tr ih =>
    cases ev with
    | SendMessage j2 r2 msg =>
      by_cases hr : r2 = r <;> by_cases hj : j2 = j <;>
        simp [List.filterMap_cons, Effect.senderTo, Effect.isSendBy, hr, hj,
          List.count_cons] <;> omega
    | _ => simpa [List.filterMap_cons, Effect.senderTo, Effect.isSendBy] using ih

theorem senderTo_mem (r : JID) (tr : List Effect) (j : Nat)
    (h : j ∈ tr.filterMap (Effect.senderTo r)) : ∃ msg, Effect.SendMessage j r msg ∈ tr := by
  rw [List.mem_filterMap] at h
  obtain ⟨ev, hev, hs⟩ := h
  cases ev with
  | SendMessage j2 r2 msg =>
    simp only [Effect.senderTo] at hs
    split at hs
    · rename_i hr
      cases hs
      subst hr
      exact ⟨msg, hev⟩
    · cases hs
  | _ => simp [Effect.senderTo] at hs

/-- If each goroutine calls `cli.SendMessage` at most once, and only with the
recipient its list entry parses to, then a recipient gets at most as many
calls as there are entries that parse to it. -/
theorem sends_le_entries (parseJID : String → Option JID) (JIDS : List String)
    (tr : List Effect) (r : JID)
    (h1 : ∀ j, tr.countP (Effect.isSendBy j) ≤ 1)
    (h2 : ∀ j r2 msg, Effect.SendMessage j r2 msg ∈ tr →
      ∃ jid, JIDS[j]? = some jid ∧ parseJID jid = some r2) :
    tr.countP (Effect.isSendTo r) ≤ JIDS.countP (fun jid => decide (parseJID jid = some r)) := by
  rw [← senderTo_length]
  apply length_le_countP_of_nodup
  · rw [List.nodup_iff_count_le_one]
    intro j
    exact le_trans (senderTo_count r tr j) (h1 j)
  · intro j hj
    obtain ⟨msg, hmsg⟩ := senderTo_mem r tr j hj
    obtain ⟨jid, hJ, hp⟩ := h2 j r msg hmsg
    exact ⟨jid, hJ, by simp [hp]⟩

/-! ## Lemmas on the pairing step relation -/

theorem pairStep_results (env : Env) (s s2 : PairState) (l : PairLabel)
    (h : pairStep env s l = some s2) :
    s2.results = s.results ∨
      ∃ result, l = PairLabel.cbReturn ∧ s.callback = CallbackPC.returning result ∧
        s2.results = s.results ++ [result] := by
  cases l <;> simp only [pairStep] at h
  case cbStart => split at h <;> simp at h; subst h; simp
  case cbRecv => split at h <;> simp at h; subst h; simp
  case cbTimeout =>
    split at h
    · split at h <;> simp at h
      subst h
      simp
    · simp at h
  case cbReturn =>
    split at h
    · rename_i result hc
      simp at h
      subst h
      exact Or.inr ⟨result, rfl, hc, rfl⟩
    · simp at h
  case termLine cmd =>
    split at h
    · split at h <;> simp at h <;> subst h <;> simp
    · simp at h
  case termSend => split at h <;> simp at h; subst h; simp
  case interrupt => split at h <;> simp at h; subst h; simp
  case tick => simp at h; subst h; simp

theorem pairRunFrom_results (env : Env) (sched : List PairLabel) :
    ∀ s s2 : PairState, pairRunFrom env s sched = some s2 → s.results <+: s2.results := by
  induction sched with
  | nil =>
    intro s s2 h
    simp only [pairRunFrom, Option.some.injEq] at h
    subst h
    exact List.prefix_refl _
  | cons l ls ih =>
    intro s s2 h
    simp only [pairRunFrom] at h
    split at h
    · rename_i s1 hs1
      have h1 := ih s1 s2 h
      rcases pairStep_results env s s1 l hs1 with he | ⟨result, _, _, he⟩
      · rw [← he]
        exact h1
      · exact List.IsPrefix.trans ⟨[result], he.symm⟩ h1
    · cases h

theorem pairStep_keeps_decision (env : Env) (s s2 : PairState) (l : PairLabel) (reject : Bool)
    (h : pairStep env s l = some s2) (hl : l ≠ PairLabel.cbRecv)
    (hc : s.pairRejectChan = some reject) : s2.pairRejectChan = some reject := by
  cases l <;> simp only [pairStep] at h
  case cbStart => split at h <;> simp at h; subst h; exact hc
  case cbRecv => exact absurd rfl hl
  case cbTimeout =>
    split at h
    · split at h <;> simp at h
      subst h
      exact hc
    · simp at h
  case cbReturn => split at h <;> simp at h; subst h; exact hc
  case termLine cmd =>
    split at h
    · split at h <;> simp at h <;> subst h <;> exact hc
    · simp at h
  case termSend =>
    rw [hc] at h
    split at h <;> simp_all
  case interrupt => split at h <;> simp at h; subst h; exact hc
  case tick => simp at h; subst h; exact hc

/-! ## C1: one outcome per submitted recipient -/

/-- C1, counterexample. The claim says that the pair returned by
`newHandleSendImage` and `newHandleSendDocument` carries one outcome per
submitted recipient. For the two recipients `111` (sent) and `x@@y` (does not
parse) both functions return no Message and one error: one outcome, not two. -/
theorem bulk_return_drops_outcomes :
    ¬ (∀ (env : Env) (JIDS : List String) (fileName : String) (data : Bytes)
        (captionMsg : String) (sched : List Nat) (r : List Message × Option String),
        (newHandleSendImage env JIDS data captionMsg sched = some r →
          outcomesCarried r = JIDS.length) ∧
        (newHandleSendDocument env JIDS fileName data captionMsg sched = some r →
          outcomesCarried r = JIDS.length)) := by
  intro h
  have h1 := (h sampleEnv ["111", "x@@y"] "f.pdf" [] "" [0, 0, 0, 0, 0, 1, 1]
    ([], some "invalid JID: x@@y")).1 (by decide)
  revert h1
  decide

/-- C1, amended. For both bulk media senders (`k`), any number of recipients
and any behaviour of the collaborators: under a fair schedule the sender
returns; and whenever it returns, `sliceM` and `errs` together hold exactly one
entry per submitted recipient, while the returned pair is either all of
`sliceM` with a nil error, then `len(JIDS)` Messages, or no Message at all and
the single error `errs[0]`. -/
theorem bulk_accumulators_cover_recipients (env : Env) (k : BulkKind) (JIDS : List String)
    (data : Bytes) (captionMsg : String) (sched : List Nat) :
    (Fair JIDS.length sched → (bulkSend env k JIDS data captionMsg sched).isSome = true) ∧
    ∀ r, bulkSend env k JIDS data captionMsg sched = some r →
      (bulkRun env k JIDS data captionMsg sched).sliceM.length +
        (bulkRun env k JIDS data captionMsg sched).errs.length = JIDS.length ∧
      ((r.2 = none ∧ r.1 = (bulkRun env k JIDS data captionMsg sched).sliceM ∧
          r.1.length = JIDS.length) ∨
        (∃ err, r.2 = some err ∧ r.1 = [] ∧
          (bulkRun env k JIDS data captionMsg sched).errs.head? = some err)) := by
  refine ⟨fun hf => bulkReturn_isSome _ (bulkRun_allDone env k JIDS data captionMsg sched hf), ?_⟩
  intro r hr
  obtain ⟨hall, hcase⟩ := bulkReturn_cases _ r hr
  have hcount := bulk_count_of_allDone env k JIDS data captionMsg sched hall
  refine ⟨hcount, ?_⟩
  rcases hcase with ⟨herrs, rfl⟩ | ⟨err, rest, herrs, rfl⟩
  · left
    rw [herrs] at hcount
    exact ⟨rfl, rfl, by simpa using hcount⟩
  · right
    exact ⟨err, rfl, rfl, by rw [herrs]; rfl⟩

/-- C1, witness: three recipients, one that does not parse and one whose send
fails, under a fair schedule that interleaves the goroutines. -/
theorem bulk_accumulators_cover_recipients_witness :
    Fair 3 [2, 0, 1, 0, 2, 1, 0, 2, 0, 2, 0, 1, 1, 1, 2] ∧
    (bulkSend sampleEnv BulkKind.image ["111", "x@@y", "222"] [7] "c"
      [2, 0, 1, 0, 2, 1, 0, 2, 0, 2, 0, 1, 1, 1, 2]).isSome = true ∧
    (bulkRun sampleEnv BulkKind.image ["111", "x@@y", "222"] [7] "c"
      [2, 0, 1, 0, 2, 1, 0, 2, 0, 2, 0, 1, 1, 1, 2]).sliceM.length +
    (bulkRun sampleEnv BulkKind.image ["111", "x@@y", "222"] [7] "c"
      [2, 0, 1, 0, 2, 1, 0, 2, 0, 2, 0, 1, 1, 1, 2]).errs.length = 3 := by
  have hf : Fair 3 [2, 0, 1, 0, 2, 1, 0, 2, 0, 2, 0, 1, 1, 1, 2] := by
    intro i hi
    interval_cases i <;> decide
  have h := bulk_accumulators_cover_recipients sampleEnv BulkKind.image
    ["111", "x@@y", "222"] [7] "c" [2, 0, 1, 0, 2, 1, 0, 2, 0, 2, 0, 1, 1, 1, 2]
  exact ⟨hf, h.1 hf, (h.2 ([], some "invalid JID: x@@y") (by decide)).1⟩

/-! ## C2: a partial failure and the successes -/

/-- C2, counterexample. The claim says that after a partial failure the
Message of every recipient that succeeded is still returned. With `111` sent
and `x@@y` not parsing, neither function returns the Message of `111`. -/
theorem bulk_partial_failure_loses_successes :
    ¬ (∀ (env : Env) (JIDS : List String) (fileName : String) (data : Bytes)
        (captionMsg : String) (sched : List Nat) (r : List Message × Option String)
        (i : Nat) (jid : String) (m : Message),
        JIDS[i]? = some jid →
        (newHandleSendImage env JIDS data captionMsg sched = some r →
          bulkOutcome env BulkKind.image data captionMsg i jid = .ok m → m ∈ r.1) ∧
        (newHandleSendDocument env JIDS fileName data captionMsg sched = some r →
          bulkOutcome env (BulkKind.document fileName) data captionMsg i jid = .ok m →
          m ∈ r.1)) := by
  intro h
  have h1 := (h sampleEnv ["111", "x@@y"] "f.pdf" [] "" [0, 0, 0, 0, 0, 1, 1]
    ([], some "invalid JID: x@@y") 0 "111"
    ⟨"ID-111@s.whatsapp.net", "111@s.whatsapp.net", "media", "", true, ""⟩ (by decide)).1
    (by decide) rfl
  simp at h1

/-- C2, amended. For both bulk media senders (`k`): under a fair schedule the
sender returns; whenever it returns and at least one recipient failed, the
returned Message list is nil and the returned error is `errs[0]`, while the
Message of every recipient that succeeded is in `sliceM` only; whenever it
returns and no recipient failed, the Message of every recipient is returned
with a nil error. -/
theorem bulk_partial_failure_returns_nil (env : Env) (k : BulkKind) (JIDS : List String)
    (data : Bytes) (captionMsg : String) (sched : List Nat) :
    (Fair JIDS.length sched → (bulkSend env k JIDS data captionMsg sched).isSome = true) ∧
    ∀ r, bulkSend env k JIDS data captionMsg sched = some r →
      ((∃ i jid e, JIDS[i]? = some jid ∧
          bulkOutcome env k data captionMsg i jid = .error e) →
        r.1 = [] ∧ r.2.isSome = true ∧
        r.2 = (bulkRun env k JIDS data captionMsg sched).errs.head? ∧
        ∀ i jid m, JIDS[i]? = some jid →
          bulkOutcome env k data captionMsg i jid = .ok m →
          m ∈ (bulkRun env k JIDS data captionMsg sched).sliceM) ∧
      ((¬ ∃ i jid e, JIDS[i]? = some jid ∧
          bulkOutcome env k data captionMsg i jid = .error e) →
        r.2 = none ∧
        ∀ i jid m, JIDS[i]? = some jid →
          bulkOutcome env k data captionMsg i jid = .ok m → m ∈ r.1) := by
  refine ⟨fun hf => bulkReturn_isSome _ (bulkRun_allDone env k JIDS data captionMsg sched hf), ?_⟩
  intro r hr
  obtain ⟨hall, hcase⟩ := bulkReturn_cases _ r hr
  obtain ⟨_, hM, hnil⟩ := bulk_recorded_of_allDone env k JIDS data captionMsg sched hall
  constructor
  · intro hfail
    rcases hcase with ⟨herrs, _⟩ | ⟨err, rest, herrs, rfl⟩
    · exact absurd hfail (hnil.1 herrs)
    · exact ⟨rfl, rfl, by rw [herrs]; rfl, hM⟩
  · intro hno
    rcases hcase with ⟨_, rfl⟩ | ⟨err, rest, herrs, _⟩
    · exact ⟨rfl, hM⟩
    · rw [hnil.2 hno] at herrs
      cases herrs

/-- C2, witness: `111` is sent, `x@@y` does not parse and the send to `222`
fails; the document sender returns nil and the first recorded error. -/
theorem bulk_partial_failure_returns_nil_witness :
    Fair 3 [0, 1, 2, 0, 1, 2, 0, 2, 0, 2, 0, 1, 1, 1, 2] ∧
    bulkSend sampleEnv (BulkKind.document "f.pdf") ["111", "x@@y", "222"] [7] "c"
      [0, 1, 2, 0, 1, 2, 0, 2, 0, 2, 0, 1, 1, 1, 2] =
      some ([], some "invalid JID: x@@y") ∧
    (⟨"ID-111@s.whatsapp.net", "111@s.whatsapp.net", "media", "", true, "f.pdf"⟩ : Message) ∈
      (bulkRun sampleEnv (BulkKind.document "f.pdf") ["111", "x@@y", "222"] [7] "c"
        [0, 1, 2, 0, 1, 2, 0, 2, 0, 2, 0, 1, 1, 1, 2]).sliceM := by
  have hf : Fair 3 [0, 1, 2, 0, 1, 2, 0, 2, 0, 2, 0, 1, 1, 1, 2] := by
    intro i hi
    interval_cases i <;> decide
  have hr : bulkSend sampleEnv (BulkKind.document "f.pdf") ["111", "x@@y", "222"] [7] "c"
      [0, 1, 2, 0, 1, 2, 0, 2, 0, 2, 0, 1, 1, 1, 2] =
      some ([], some "invalid JID: x@@y") := by decide
  have h := bulk_partial_failure_returns_nil sampleEnv (BulkKind.document "f.pdf")
    ["111", "x@@y", "222"] [7] "c" [0, 1, 2, 0, 1, 2, 0, 2, 0, 2, 0, 1, 1, 1, 2]
  exact ⟨hf, hr, ((h.2 _ hr).1 ⟨1, "x@@y", "invalid JID: x@@y", by decide, rfl⟩).2.2.2
    0 "111" _ (by decide) rfl⟩

/-! ## C3: a recipient that does not parse -/

/-- C3, counterexample. The claim says that each of the three bulk senders
records a failure outcome for a recipient that does not parse. Given the one
recipient `x@@y`, `handleSendNewTextMessageBulk` returns having performed no
action at all: it has no result or error list, and it logs nothing. -/
theorem text_bulk_records_nothing :
    ¬ (∀ (env : Env) (textMsg : String) (jids : List String) (sched : List Nat)
        (done : List Effect) (i : Nat) (jid : String),
        jids[i]? = some jid → env.parseJID jid = none →
        handleSendNewTextMessageBulk env textMsg jids sched = some done →
        ∃ ev, ev ∈ done) := by
  intro h
  obtain ⟨ev, hev⟩ := h sampleEnv "hi" ["x@@y"] [0] [] 0 "x@@y" (by decide) (by decide) rfl
  cases hev

/-- C3, amended. Let entry `i` of the recipient list be a string for which
`parseJID` fails. Under any schedule, neither bulk media sender (`k`) nor the
bulk text sender makes an upload call or a send call from the goroutine of
that entry. In the media senders the error `invalid JID: <jid>` is in `errs`
once the goroutines have joined, which happens under every fair schedule. -/
theorem unparsable_recipient_not_sent (env : Env) (k : BulkKind) (JIDS : List String)
    (data : Bytes) (captionMsg textMsg : String) (sched : List Nat) (i : Nat) (jid : String)
    (hJ : JIDS[i]? = some jid) (hp : env.parseJID jid = none) :
    (∀ ev ∈ (bulkRun env k JIDS data captionMsg sched).trace, ev.task ≠ some i) ∧
    (∀ ev ∈ (textRun env textMsg JIDS sched).trace, ev.task ≠ some i) ∧
    (Fair JIDS.length sched →
      (bulkSend env k JIDS data captionMsg sched).isSome = true) ∧
    (∀ r, bulkSend env k JIDS data captionMsg sched = some r →
      ("invalid JID: " ++ jid) ∈ (bulkRun env k JIDS data captionMsg sched).errs) := by
  refine ⟨?_, ?_, ?_, ?_⟩
  · intro ev hev htask
    obtain ⟨jid2, r, hJ2, hr⟩ :=
      (bulkInv_run env k JIDS data captionMsg sched).calls ev hev i htask
    rw [hJ] at hJ2
    cases hJ2
    rw [hp] at hr
    cases hr
  · intro ev hev htask
    obtain ⟨jid2, r, hJ2, hr⟩ := (textInv_run env textMsg JIDS sched).calls ev hev i htask
    rw [hJ] at hJ2
    cases hJ2
    rw [hp] at hr
    cases hr
  · exact fun hf => bulkReturn_isSome _ (bulkRun_allDone env k JIDS data captionMsg sched hf)
  · intro r hr
    obtain ⟨hall, _⟩ := bulkReturn_cases _ r hr
    exact (bulk_recorded_of_allDone env k JIDS data captionMsg sched hall).1 i jid _ hJ
      (by simp [bulkOutcome, hp])

/-- C3, witness: the entry `x@@y` at index 1 of three recipients. -/
theorem unparsable_recipient_not_sent_witness :
    (∀ ev ∈ (bulkRun sampleEnv BulkKind.image ["111", "x@@y", "222"] [7] "c"
        [0, 1, 2, 0, 1, 2, 0, 2, 0, 2, 0, 1, 1, 1, 2]).trace, ev.task ≠ some 1) ∧
    (∀ ev ∈ (textRun sampleEnv "hi" ["111", "x@@y", "222"]
        [0, 1, 2, 0, 1, 2, 0, 2, 0, 2, 0, 1, 1, 1, 2]).trace, ev.task ≠ some 1) ∧
    "invalid JID: x@@y" ∈ (bulkRun sampleEnv BulkKind.image ["111", "x@@y", "222"] [7] "c"
        [0, 1, 2, 0, 1, 2, 0, 2, 0, 2, 0, 1, 1, 1, 2]).errs := by
  have h := unparsable_recipient_not_sent sampleEnv BulkKind.image ["111", "x@@y", "222"]
    [7] "c" "hi" [0, 1, 2, 0, 1, 2, 0, 2, 0, 2, 0, 1, 1, 1, 2] 1 "x@@y" (by decide) (by decide)
  exact ⟨h.1, h.2.1, h.2.2.2 ([], some "invalid JID: x@@y") (by decide)⟩

/-! ## C4: what the pairing callback returns -/

/-- C4. The pairing callback returns false exactly when its `select` received
a decision with `reject = true`; a decision with `reject = false` and the
timer both make it return true. In the step relation: while the callback is
in its `select`, the receive is possible exactly when the channel holds a
decision and leads to returning the negation of `reject`; the timer case is
possible exactly from the deadline on, which is three seconds after the
callback started, and leads to returning true; and the value so chosen is the
one appended to the results when the callback returns. -/
theorem prePair_refuses_iff_reject (env : Env) (s : PairState) (deadline : Nat)
    (h : s.callback = CallbackPC.selecting deadline) :
    (∀ ev, prePairResult ev = false ↔ ev = SelectEvent.decision true) ∧
    prePairResult (SelectEvent.decision false) = true ∧
    prePairResult SelectEvent.timeout = true ∧
    (∀ reject, s.pairRejectChan = some reject →
      pairStep env s PairLabel.cbRecv =
        some { s with pairRejectChan := none, callback := CallbackPC.returning (!reject) }) ∧
    (s.pairRejectChan = none → pairStep env s PairLabel.cbRecv = none) ∧
    (deadline ≤ s.now →
      pairStep env s PairLabel.cbTimeout =
        some { s with callback := CallbackPC.returning true }) ∧
    (s.now < deadline → pairStep env s PairLabel.cbTimeout = none) ∧
    (∀ s0 : PairState, s0.callback = CallbackPC.idle →
      pairStep env s0 PairLabel.cbStart =
        some { s0 with isWaitingForPair := true
                       callback := CallbackPC.selecting (s0.now + 3) }) ∧
    (∀ (s1 : PairState) (result : Bool), s1.callback = CallbackPC.returning result →
      pairStep env s1 PairLabel.cbReturn =
        some { s1 with isWaitingForPair := false, callback := CallbackPC.idle
                       results := s1.results ++ [result] }) := by
  refine ⟨?_, rfl, rfl, ?_, ?_, ?_, ?_, ?_, ?_⟩
  · intro ev
    cases ev with
    | decision reject => cases reject <;> simp [prePairResult]
    | timeout => simp [prePairResult]
  · intro reject hc
    cases reject <;> simp [pairStep, h, hc, prePairResult]
  · intro hc
    simp [pairStep, h, hc]
  · intro hd
    simp [pairStep, h, hd, prePairResult]
  · intro hd
    simp [pairStep, h, Nat.not_le.2 hd]
  · intro s0 h0
    simp [pairStep, h0]
  · intro s1 result h1
    simp [pairStep, h1]

/-- C4, witness: a callback in its `select` with a reject decision in the
channel, before the deadline: it can only receive, and then returns false. -/
theorem prePair_refuses_iff_reject_witness :
    (⟨some true, true, CallbackPC.selecting 3, TerminalPC.reading, 1, [], []⟩ :
      PairState).callback = CallbackPC.selecting 3 ∧
    pairStep sampleEnv ⟨some true, true, CallbackPC.selecting 3, TerminalPC.reading, 1, [], []⟩
      PairLabel.cbRecv =
      some ⟨none, true, CallbackPC.returning false, TerminalPC.reading, 1, [], []⟩ ∧
    pairStep sampleEnv ⟨some true, true, CallbackPC.selecting 3, TerminalPC.reading, 1, [], []⟩
      PairLabel.cbTimeout = none :=
  have h := prePair_refuses_iff_reject sampleEnv
    ⟨some true, true, CallbackPC.selecting 3, TerminalPC.reading, 1, [], []⟩ 3 rfl
  ⟨rfl, h.2.2.2.1 true rfl, h.2.2.2.2.2.2.1 (by decide)⟩

/-! ## C5: a persistence failure in the single-recipient media senders -/

/-- C5, counterexample. The claim says that `handleSendImage` and
`handleSendDocument` return a nil error once the recipient parsed, the upload
succeeded and the send succeeded, whatever the persistence calls answer. With
a chat log database that is down both return the error of `insertMessages`. -/
theorem single_send_fails_on_persistence :
    ¬ (∀ (env : Env) (rawJID fileName : String) (userID : Int) (data : Bytes)
        (captionMsg : String) (recipient : JID) (up : UploadResponse)
        (respI respD : SendResponse),
        env.parseJID rawJID = some recipient →
        (env.Upload 0 data MediaType.MediaImage = .ok up →
          env.SendMessage 0 recipient (createImageMessage env up data captionMsg) = .ok respI →
          (handleSendImage env rawJID userID data captionMsg).1 = none) ∧
        (env.Upload 0 data MediaType.MediaDocument = .ok up →
          env.SendMessage 0 recipient (createDocumentMessage env fileName up data captionMsg) =
            .ok respD →
          (handleSendDocument env rawJID fileName userID data captionMsg).1 = none)) := by
  intro h
  have h1 := (h storeDownEnv "111" "f.pdf" 7 [1] "c" ⟨"111@s.whatsapp.net"⟩
    ⟨"https://mmg/f.enc", "/v/f.enc", [1], [2], [3]⟩ ⟨"ID-111@s.whatsapp.net", "t0"⟩
    ⟨"ID-111@s.whatsapp.net", "t0"⟩ rfl).1 rfl rfl
  revert h1
  decide

/-- C5, amended. When the recipient parses, the upload succeeds and the send
succeeds, `handleSendImage` and `handleSendDocument` return a nil error exactly
when both `insertMessages` and `insertLastMessages` succeed. If
`insertMessages` fails they return `error inserting into messages: <err>`; if
it succeeds and `insertLastMessages` fails they return
`error inserting into last_messages: <err>`. In every case the `SendMessage`
call has been made. -/
theorem single_send_error_iff_persistence (env : Env) (rawJID fileName : String) (userID : Int)
    (data : Bytes) (captionMsg : String) (recipient : JID) (upI upD : UploadResponse)
    (respI respD : SendResponse)
    (hp : env.parseJID rawJID = some recipient)
    (huI : env.Upload 0 data MediaType.MediaImage = .ok upI)
    (hsI : env.SendMessage 0 recipient (createImageMessage env upI data captionMsg) = .ok respI)
    (huD : env.Upload 0 data MediaType.MediaDocument = .ok upD)
    (hsD : env.SendMessage 0 recipient (createDocumentMessage env fileName upD data captionMsg) =
      .ok respD) :
    (((handleSendImage env rawJID userID data captionMsg).1 = none ↔
        env.insertMessages respI.ID env.storeID recipient.str "" "media" respI.Timestamp
          true "" userID = none ∧
        env.insertLastMessages respI.ID env.storeID recipient.str "" "media" respI.Timestamp
          true "" userID = none) ∧
      (∀ err, env.insertMessages respI.ID env.storeID recipient.str "" "media"
          respI.Timestamp true "" userID = some err →
        (handleSendImage env rawJID userID data captionMsg).1 =
          some ("error inserting into messages: " ++ err)) ∧
      (∀ err, env.insertMessages respI.ID env.storeID recipient.str "" "media"
          respI.Timestamp true "" userID = none →
        env.insertLastMessages respI.ID env.storeID recipient.str "" "media"
          respI.Timestamp true "" userID = some err →
        (handleSendImage env rawJID userID data captionMsg).1 =
          some ("error inserting into last_messages: " ++ err)) ∧
      Effect.SendMessage 0 recipient (createImageMessage env upI data captionMsg) ∈
        (handleSendImage env rawJID userID data captionMsg).2) ∧
    (((handleSendDocument env rawJID fileName userID data captionMsg).1 = none ↔
        env.insertMessages respD.ID env.storeID recipient.str "" "media" respD.Timestamp
          true fileName userID = none ∧
        env.insertLastMessages respD.ID env.storeID recipient.str "" "media" respD.Timestamp
          true fileName userID = none) ∧
      (∀ err, env.insertMessages respD.ID env.storeID recipient.str "" "media"
          respD.Timestamp true fileName userID = some err →
        (handleSendDocument env rawJID fileName userID data captionMsg).1 =
          some ("error inserting into messages: " ++ err)) ∧
      (∀ err, env.insertMessages respD.ID env.storeID recipient.str "" "media"
          respD.Timestamp true fileName userID = none →
        env.insertLastMessages respD.ID env.storeID recipient.str "" "media"
          respD.Timestamp true fileName userID = some err →
        (handleSendDocument env rawJID fileName userID data captionMsg).1 =
          some ("error inserting into last_messages: " ++ err)) ∧
      Effect.SendMessage 0 recipient (createDocumentMessage env fileName upD data captionMsg) ∈
        (handleSendDocument env rawJID fileName userID data captionMsg).2) := by
  constructor
  · unfold handleSendImage
    simp only [hp, huI, hsI]
    cases hm : env.insertMessages respI.ID env.storeID recipient.str "" "media"
        respI.Timestamp true "" userID <;>
      cases hl : env.insertLastMessages respI.ID env.storeID recipient.str "" "media"
        respI.Timestamp true "" userID <;> simp
  · unfold handleSendDocument
    simp only [hp, huD, hsD]
    cases hm : env.insertMessages respD.ID env.storeID recipient.str "" "media"
        respD.Timestamp true fileName userID <;>
      cases hl : env.insertLastMessages respD.ID env.storeID recipient.str "" "media"
        respD.Timestamp true fileName userID <;> simp

/-- C5, witness: the recipient `111` with the chat log database down. -/
theorem single_send_error_iff_persistence_witness :
    (handleSendImage storeDownEnv "111" 7 [1] "c").1 =
      some "error inserting into messages: pq: connection refused" ∧
    (handleSendDocument storeDownEnv "111" "f.pdf" 7 [1] "c").1 =
      some "error inserting into messages: pq: connection refused" ∧
    (handleSendImage sampleEnv "111" 7 [1] "c").1 = none :=
  have h := single_send_error_iff_persistence storeDownEnv "111" "f.pdf" 7 [1] "c"
    ⟨"111@s.whatsapp.net"⟩ ⟨"https://mmg/f.enc", "/v/f.enc", [1], [2], [3]⟩
    ⟨"https://mmg/f.enc", "/v/f.enc", [1], [2], [3]⟩ ⟨"ID-111@s.whatsapp.net", "t0"⟩
    ⟨"ID-111@s.whatsapp.net", "t0"⟩ rfl rfl rfl rfl rfl
  have g := single_send_error_iff_persistence sampleEnv "111" "f.pdf" 7 [1] "c"
    ⟨"111@s.whatsapp.net"⟩ ⟨"https://mmg/f.enc", "/v/f.enc", [1], [2], [3]⟩
    ⟨"https://mmg/f.enc", "/v/f.enc", [1], [2], [3]⟩ ⟨"ID-111@s.whatsapp.net", "t0"⟩
    ⟨"ID-111@s.whatsapp.net", "t0"⟩ rfl rfl rfl rfl rfl
  ⟨h.1.2.1 _ rfl, h.2.2.1 _ rfl, g.1.1.2 ⟨rfl, rfl⟩⟩

/-! ## C6: send attempts per recipient -/

/-- C6, counterexample. The claim says that in one invocation of a bulk sender
each recipient identity gets at most one send attempt. With the recipient
`111` listed twice, the image sender and the text sender each call
`cli.SendMessage` twice for it. -/
theorem bulk_sends_twice_to_repeated_recipient :
    ¬ (∀ (env : Env) (JIDS : List String) (data : Bytes) (captionMsg textMsg : String)
        (sched : List Nat) (r : JID),
        (bulkRun env BulkKind.image JIDS data captionMsg sched).trace.countP
          (Effect.isSendTo r) ≤ 1 ∧
        (textRun env textMsg JIDS sched).trace.countP (Effect.isSendTo r) ≤ 1) := by
  intro h
  have h1 := (h sampleEnv ["111", "111"] [1] "c" "hi" [0, 1, 0, 1, 0, 1]
    ⟨"111@s.whatsapp.net"⟩).1
  revert h1
  decide

/-- C6, amended. In one invocation of a bulk sender (either media sender `k`,
or the text sender), under any schedule, the goroutine of each list entry
calls `cli.SendMessage` at most once; so a recipient identity `r` gets at most
as many send attempts as there are entries that parse to `r`, which is at most
one when no two entries parse to the same identity. -/
theorem bulk_sends_bounded_by_entries (env : Env) (k : BulkKind) (JIDS : List String)
    (data : Bytes) (captionMsg textMsg : String) (sched : List Nat) (r : JID) :
    (∀ i, (bulkRun env k JIDS data captionMsg sched).trace.countP (Effect.isSendBy i) ≤ 1) ∧
    (bulkRun env k JIDS data captionMsg sched).trace.countP (Effect.isSendTo r) ≤
      JIDS.countP (fun jid => decide (env.parseJID jid = some r)) ∧
    (∀ i, (textRun env textMsg JIDS sched).trace.countP (Effect.isSendBy i) ≤ 1) ∧
    (textRun env textMsg JIDS sched).trace.countP (Effect.isSendTo r) ≤
      JIDS.countP (fun jid => decide (env.parseJID jid = some r)) := by
  have hb := bulkInv_run env k JIDS data captionMsg sched
  have ht := textInv_run env textMsg JIDS sched
  exact ⟨fun i => (hb.sendOnce i).1,
    sends_le_entries env.parseJID JIDS _ r (fun i => (hb.sendOnce i).1) hb.sendTo,
    fun i => (ht.sendOnce i).1,
    sends_le_entries env.parseJID JIDS _ r (fun i => (ht.sendOnce i).1) ht.sendTo⟩

/-- C6, witness: the recipient `111` is listed twice and `222` once; `111`
gets two send attempts, as many as the entries that parse to it. -/
theorem bulk_sends_bounded_by_entries_witness :
    (bulkRun sampleEnv BulkKind.image ["111", "222", "111"] [7] "c"
      [0, 1, 2, 0, 1, 2, 0, 1, 2]).trace.countP
        (Effect.isSendTo ⟨"111@s.whatsapp.net"⟩) = 2 ∧
    (bulkRun sampleEnv BulkKind.image ["111", "222", "111"] [7] "c"
      [0, 1, 2, 0, 1, 2, 0, 1, 2]).trace.countP
        (Effect.isSendTo ⟨"111@s.whatsapp.net"⟩) ≤
      ["111", "222", "111"].countP
        (fun jid => decide (sampleEnv.parseJID jid = some ⟨"111@s.whatsapp.net"⟩)) ∧
    (textRun sampleEnv "hi" ["111", "222", "111"] [0, 1, 2, 0, 1, 2, 0, 1, 2]).trace.countP
        (Effect.isSendBy 2) ≤ 1 :=
  have h := bulk_sends_bounded_by_entries sampleEnv BulkKind.image ["111", "222", "111"]
    [7] "c" "hi" [0, 1, 2, 0, 1, 2, 0, 1, 2] ⟨"111@s.whatsapp.net"⟩
  ⟨by decide, h.2.1, h.2.2.1 2⟩

/-! ## C7: the single error returned -/

/-- C7. For both bulk media senders (`k`): under a fair schedule the sender
returns; whenever it returns and at least one recipient failed, the returned
error is not nil and is the head of `errs`, which is the first error that was
appended during the run (an error at the head of `errs` after any initial part
of the schedule is the one returned); when no recipient failed the returned
error is nil. -/
theorem bulk_returns_first_recorded_error (env : Env) (k : BulkKind) (JIDS : List String)
    (data : Bytes) (captionMsg : String) (sched : List Nat) :
    (Fair JIDS.length sched → (bulkSend env k JIDS data captionMsg sched).isSome = true) ∧
    ∀ r, bulkSend env k JIDS data captionMsg sched = some r →
      ((∃ i jid e, JIDS[i]? = some jid ∧
          bulkOutcome env k data captionMsg i jid = .error e) →
        ∃ err, r.2 = some err ∧
          (bulkRun env k JIDS data captionMsg sched).errs.head? = some err) ∧
      (∀ early rest first, sched = early ++ rest →
        (bulkRun env k JIDS data captionMsg early).errs.head? = some first →
        r.2 = some first) ∧
      ((¬ ∃ i jid e, JIDS[i]? = some jid ∧
          bulkOutcome env k data captionMsg i jid = .error e) → r.2 = none) := by
  refine ⟨fun hf => bulkReturn_isSome _ (bulkRun_allDone env k JIDS data captionMsg sched hf), ?_⟩
  intro r hr
  obtain ⟨hall, hcase⟩ := bulkReturn_cases _ r hr
  obtain ⟨_, _, hnil⟩ := bulk_recorded_of_allDone env k JIDS data captionMsg sched hall
  refine ⟨?_, ?_, ?_⟩
  · intro hfail
    rcases hcase with ⟨herrs, _⟩ | ⟨err, rest, herrs, rfl⟩
    · exact absurd hfail (hnil.1 herrs)
    · exact ⟨err, rfl, by rw [herrs]; rfl⟩
  · intro early rest first hsplit hfirst
    obtain ⟨more, hmore⟩ := bulk_errs_append env k JIDS data captionMsg rest
      (bulkRun env k JIDS data captionMsg early)
    have hrun : (bulkRun env k JIDS data captionMsg sched).errs =
        (bulkRun env k JIDS data captionMsg early).errs ++ more := by
      rw [← hmore, hsplit]
      simp [bulkRun, List.foldl_append]
    cases hearly : (bulkRun env k JIDS data captionMsg early).errs with
    | nil =>
      rw [hearly] at hfirst
      cases hfirst
    | cons e es =>
      rw [hearly] at hfirst hrun
      simp only [List.head?_cons, Option.some.injEq] at hfirst
      subst hfirst
      rcases hcase with ⟨herrs, _⟩ | ⟨err, rest2, herrs, rfl⟩
      · rw [herrs] at hrun
        cases hrun
      · rw [herrs] at hrun
        simp only [List.cons_append, List.cons.injEq] at hrun
        rw [hrun.1]
  · intro hno
    rcases hcase with ⟨_, rfl⟩ | ⟨err, rest, herrs, _⟩
    · rfl
    · rw [hnil.2 hno] at herrs
      cases herrs

/-- C7, witness: of three recipients `x@@y` does not parse and the send to
`222` fails. Under this schedule the send error is appended first and is the
one returned. -/
theorem bulk_returns_first_recorded_error_witness :
    bulkSend sampleEnv BulkKind.image ["111", "x@@y", "222"] [7] "c"
      [2, 2, 2, 2, 0, 1, 0, 1, 0, 0, 0] =
      some ([], some "error sending image message: timeout") ∧
    (bulkRun sampleEnv BulkKind.image ["111", "x@@y", "222"] [7] "c"
      [2, 2, 2, 2, 0, 1, 0, 1, 0, 0, 0]).errs =
      ["error sending image message: timeout", "invalid JID: x@@y"] ∧
    (bulkRun sampleEnv BulkKind.image ["111", "x@@y", "222"] [7] "c"
      [2, 2, 2, 2, 0, 1, 0, 1, 0, 0, 0]).errs.head? =
      some "error sending image message: timeout" := by
  have hr : bulkSend sampleEnv BulkKind.image ["111", "x@@y", "222"] [7] "c"
      [2, 2, 2, 2, 0, 1, 0, 1, 0, 0, 0] =
      some ([], some "error sending image message: timeout") := by decide
  obtain ⟨err, he, hh⟩ := ((bulk_returns_first_recorded_error sampleEnv BulkKind.image
    ["111", "x@@y", "222"] [7] "c" [2, 2, 2, 2, 0, 1, 0, 1, 0, 0, 0]).2 _ hr).1
    ⟨1, "x@@y", "invalid JID: x@@y", by decide, rfl⟩
  cases he
  exact ⟨hr, by decide, hh⟩

/-! ## C8: a decision written after the gate has resolved -/

/-- C8, the code at the failing input. The claim says that a decision written
after the gate has resolved is never received by a later pairing attempt (so
with no further write and no receive in between, a receive stays impossible)
and that its write never blocks. The loop writes only after loading
`isWaitingForPair`, but the load and the write are two steps. First run: `r`
is typed while the first attempt is pending, the timer wins, the callback
returns true, and only then the write completes; the second attempt, during
which nothing is typed, receives that decision and is refused. Second run: the
late write fills the buffer, `r` is typed once more before the callback has
cleared the flag, and this second write cannot complete although no attempt is
pending. -/
theorem late_decision_decides_next_pairing :
    (¬ ∀ (env : Env) (early later : List PairLabel) (s1 s2 : PairState),
        pairRun env early = some s1 → s1.callback.pending = false →
        pairStep env s1 PairLabel.termSend = some s2 →
        PairLabel.termSend ∉ later → PairLabel.cbRecv ∉ later →
        pairRunFrom env s2 (later ++ [PairLabel.cbRecv]) = none) ∧
    (¬ ∀ (env : Env) (sched : List PairLabel) (s : PairState) (reject : Bool),
        pairRun env sched = some s → s.callback.pending = false →
        s.terminal = TerminalPC.sending reject →
        (pairStep env s PairLabel.termSend).isSome = true) ∧
    pairRun sampleEnv [PairLabel.cbStart, PairLabel.termLine "r", PairLabel.tick,
      PairLabel.tick, PairLabel.tick, PairLabel.cbTimeout, PairLabel.cbReturn,
      PairLabel.termSend, PairLabel.cbStart, PairLabel.cbRecv, PairLabel.cbReturn] =
      some ⟨none, false, CallbackPC.idle, TerminalPC.reading, 3, [true, false], []⟩ ∧
    pairRun sampleEnv [PairLabel.cbStart, PairLabel.termLine "r", PairLabel.tick,
      PairLabel.tick, PairLabel.tick, PairLabel.cbTimeout, PairLabel.termSend,
      PairLabel.termLine "r", PairLabel.cbReturn] =
      some ⟨some true, false, CallbackPC.idle, TerminalPC.sending true, 3, [true], []⟩ := by
  refine ⟨?_, ?_, by decide, by decide⟩
  · intro h
    have h1 := h sampleEnv [PairLabel.cbStart, PairLabel.termLine "r", PairLabel.tick,
      PairLabel.tick, PairLabel.tick, PairLabel.cbTimeout, PairLabel.cbReturn]
      [PairLabel.cbStart]
      ⟨none, false, CallbackPC.idle, TerminalPC.sending true, 3, [true], []⟩
      ⟨some true, false, CallbackPC.idle, TerminalPC.reading, 3, [true], []⟩
      (by decide) (by decide) (by decide) (by decide) (by decide)
    revert h1
    decide
  · intro h
    have h1 := h sampleEnv [PairLabel.cbStart, PairLabel.termLine "r", PairLabel.tick,
      PairLabel.tick, PairLabel.tick, PairLabel.cbTimeout, PairLabel.termSend,
      PairLabel.termLine "r", PairLabel.cbReturn]
      ⟨some true, false, CallbackPC.idle, TerminalPC.sending true, 3, [true], []⟩ true
      (by decide) (by decide) (by decide)
    revert h1
    decide

/-! ## C9: the tokens `r` and `a` while a pairing is pending -/

/-- C9. While `isWaitingForPair` is set, the terminal loop turns the line `r`
into the send of `true` on `pairRejectChan` and the line `a` into the send of
`false`; neither line yields a `Command`, and the list of commands handed to
`handleCmd` stays as it was. The pending send puts its value into the channel
once the buffer is empty. -/
theorem pending_pair_tokens_write_decision (env : Env) (s : PairState)
    (hw : s.isWaitingForPair = true) (ht : s.terminal = TerminalPC.reading) :
    mainLoopBody env true "r" = LoopAction.send true ∧
    mainLoopBody env true "a" = LoopAction.send false ∧
    pairStep env s (PairLabel.termLine "r") =
      some { s with terminal := TerminalPC.sending true } ∧
    pairStep env s (PairLabel.termLine "a") =
      some { s with terminal := TerminalPC.sending false } ∧
    (∀ cmd s2, (cmd = "r" ∨ cmd = "a") → pairStep env s (PairLabel.termLine cmd) = some s2 →
      s2.handled = s.handled) ∧
    (∀ (s1 : PairState) (reject : Bool), s1.terminal = TerminalPC.sending reject →
      s1.pairRejectChan = none →
      pairStep env s1 PairLabel.termSend =
        some { s1 with pairRejectChan := some reject, terminal := TerminalPC.reading }) := by
  have hr : mainLoopBody env true "r" = LoopAction.send true := by
    have h0 : ¬ "r".length = 0 := by decide
    simp [mainLoopBody, h0]
  have ha : mainLoopBody env true "a" = LoopAction.send false := by
    have h0 : ¬ "a".length = 0 := by decide
    have h1 : ¬ "a" = "r" := by decide
    simp [mainLoopBody, h0, h1]
  refine ⟨hr, ha, by simp [pairStep, ht, hw, hr], by simp [pairStep, ht, hw, ha], ?_, ?_⟩
  · intro cmd s2 hcmd hstep
    rcases hcmd with rfl | rfl
    · simp [pairStep, ht, hw, hr] at hstep
      subst hstep
      rfl
    · simp [pairStep, ht, hw, ha] at hstep
      subst hstep
      rfl
  · intro s1 reject h1 hc
    simp [pairStep, h1, hc]

/-- C9, witness: the callback has started, its `select` is waiting, and `r`
is typed and then written. -/
theorem pending_pair_tokens_write_decision_witness :
    pairRun sampleEnv [PairLabel.cbStart] =
      some ⟨none, true, CallbackPC.selecting 3, TerminalPC.reading, 0, [], []⟩ ∧
    pairStep sampleEnv ⟨none, true, CallbackPC.selecting 3, TerminalPC.reading, 0, [], []⟩
      (PairLabel.termLine "r") =
      some ⟨none, true, CallbackPC.selecting 3, TerminalPC.sending true, 0, [], []⟩ ∧
    pairStep sampleEnv ⟨none, true, CallbackPC.selecting 3, TerminalPC.sending true, 0, [], []⟩
      PairLabel.termSend =
      some ⟨some true, true, CallbackPC.selecting 3, TerminalPC.reading, 0, [], []⟩ :=
  have h := pending_pair_tokens_write_decision sampleEnv
    ⟨none, true, CallbackPC.selecting 3, TerminalPC.reading, 0, [], []⟩ rfl rfl
  ⟨by decide, h.2.2.1, h.2.2.2.2.2 _ true rfl rfl⟩

/-! ## C10: the case of command names -/

/-- C10, the code at the failing input. The loop of `serveWs` hands the decoded
`Command` to `handleCmd` as it is, so the JSON commands with `cmd` equal to
`SEND` and to `send` reach it with different names; the terminal loop hands
over the lower-cased first field of the line, so both spellings arrive as
`send`. -/
theorem serveWs_keeps_command_case :
    (∀ cmd : Command, serveWsBody (.ok cmd) = LoopAction.handleCmd cmd) ∧
    (∀ (env : Env) (line name : String) (rest : List String), line.length ≠ 0 →
      Fields line = name :: rest →
      mainLoopBody env false line = LoopAction.handleCmd ⟨env.ToLower name, rest, 0⟩) ∧
    serveWsBody (.ok ⟨"SEND", ["111", "hi"], 7⟩) =
      LoopAction.handleCmd ⟨"SEND", ["111", "hi"], 7⟩ ∧
    serveWsBody (.ok ⟨"send", ["111", "hi"], 7⟩) =
      LoopAction.handleCmd ⟨"send", ["111", "hi"], 7⟩ ∧
    mainLoopBody sampleEnv false "SEND 111 hi" =
      LoopAction.handleCmd ⟨"send", ["111", "hi"], 0⟩ ∧
    mainLoopBody sampleEnv false "send 111 hi" =
      LoopAction.handleCmd ⟨"send", ["111", "hi"], 0⟩ := by
  refine ⟨fun _ => rfl, ?_, rfl, rfl, by decide, by decide⟩
  intro env line name rest hlen hf
  simp [mainLoopBody, hlen, hf]

/-! ## The order of `sliceM` -/

theorem filterMap_update_perm {β : Type} (l : List Nat) (i : Nat) (m : β)
    (f g : Nat → Option β) (hnd : l.Nodup) (hi : i ∈ l)
    (hne : ∀ j, j ≠ i → g j = f j) (hf : f i = none) (hg : g i = some m) :
    (l.filterMap g).Perm (m :: l.filterMap f) := by
  induction l with
  | nil => cases hi
  | cons x xs ih =>
    rw [List.nodup_cons] at hnd
    by_cases hx : x = i
    · subst hx
      have hsame : xs.filterMap g = xs.filterMap f := by
        apply List.filterMap_congr
        intro j hj
        exact hne j (fun h => hnd.1 (h ▸ hj))
      rw [List.filterMap_cons_some hg, List.filterMap_cons_none hf, hsame]
    · have hi2 : i ∈ xs := by
        rcases List.mem_cons.1 hi with h | h
        · exact absurd h.symm hx
        · exact h
      have ih2 := ih hnd.2 hi2
      have hgx : g x = f x := hne x hx
      cases hfx : f x with
      | none =>
        rw [List.filterMap_cons_none (by rw [hgx, hfx]), List.filterMap_cons_none hfx]
        exact ih2
      | some b =>
        rw [List.filterMap_cons_some (by rw [hgx, hfx]), List.filterMap_cons_some hfx]
        exact (List.Perm.cons b ih2).trans (List.Perm.swap m b _)

theorem move_recorded {env : Env} {k : BulkKind} {data : Bytes} {captionMsg : String}
    {i : Nat} {jid : String} {t t2 : BulkTask} {ms : List Message} {es : List String}
    {tr : List Effect} (hm : Move env k data captionMsg i jid t t2 ms es tr)
    (h : TaskOk env k data captionMsg i jid t) :
    (ms = [] ∧ (t2 = BulkTask.done → ∃ e, bulkOutcome env k data captionMsg i jid = .error e)) ∨
    (∃ m, ms = [m] ∧ t2 = BulkTask.done ∧ bulkOutcome env k data captionMsg i jid = .ok m) := by
  cases hm with
  | store m => exact Or.inr ⟨m, rfl, rfl, h⟩
  | fail err => exact Or.inl ⟨rfl, fun _ => ⟨err, h⟩⟩
  | _ => exact Or.inl ⟨rfl, fun hd => by cases hd⟩

theorem recordedBy_of_not_done (env : Env) (k : BulkKind) (JIDS : List String) (data : Bytes)
    (captionMsg : String) (tasks : List BulkTask) (i : Nat) (t : BulkTask)
    (ht : tasks[i]? = some t) (hnd : t.isDone = false) :
    recordedBy env k JIDS data captionMsg tasks i = none := by
  unfold recordedBy
  rw [ht]
  cases t <;> simp_all [BulkTask.isDone]

theorem bulkPerm_step (env : Env) (k : BulkKind) (JIDS : List String) (data : Bytes)
    (captionMsg : String) (s : BulkState) (i : Nat)
    (hinv : BulkInv env k JIDS data captionMsg s)
    (hp : s.sliceM.Perm ((List.range JIDS.length).filterMap
      (recordedBy env k JIDS data captionMsg s.tasks))) :
    (bulkStep env k JIDS data captionMsg s i).sliceM.Perm
      ((List.range JIDS.length).filterMap
        (recordedBy env k JIDS data captionMsg (bulkStep env k JIDS data captionMsg s i).tasks)) := by
  rcases bulkStep_cases env k JIDS data captionMsg s i with
    ⟨he, _⟩ | ⟨jid, t, t2, ms, es, tr, hJ, ht, hm, he⟩
  · rw [he]
    exact hp
  rw [he]
  have hok := hinv.ok i t jid ht hJ
  have hnd := (move_count hm).1
  have hold := recordedBy_of_not_done env k JIDS data captionMsg s.tasks i t ht hnd
  have hget := fun j => @getElem?_set_of _ s.tasks i t t2 ht j
  have hother : ∀ j, j ≠ i →
      recordedBy env k JIDS data captionMsg (s.tasks.set i t2) j =
        recordedBy env k JIDS data captionMsg s.tasks j := by
    intro j hj
    unfold recordedBy
    rw [hget j, if_neg hj]
  have hiN : i < JIDS.length := by
    by_contra hc
    rw [List.getElem?_eq_none (by omega)] at hJ
    cases hJ
  rcases move_recorded hm hok with ⟨hms, hdone⟩ | ⟨m, hms, hdone, hout⟩
  · subst hms
    have hsame : ∀ j ∈ List.range JIDS.length,
        recordedBy env k JIDS data captionMsg (s.tasks.set i t2) j =
          recordedBy env k JIDS data captionMsg s.tasks j := by
      intro j _
      by_cases hj : j = i
      · subst hj
        rw [hold]
        unfold recordedBy
        rw [hget j, if_pos rfl, hJ]
        cases t2 with
        | done =>
          obtain ⟨e, hout⟩ := hdone rfl
          simp [hout]
        | _ => rfl
      · exact hother j hj
    simp only [List.append_nil]
    rw [List.filterMap_congr hsame]
    exact hp
  · subst hms
    subst hdone
    have hnew : recordedBy env k JIDS data captionMsg (s.tasks.set i BulkTask.done) i = some m := by
      unfold recordedBy
      rw [hget i, if_pos rfl, hJ]
      simp [hout]
    have hperm := filterMap_update_perm (List.range JIDS.length) i m
      (recordedBy env k JIDS data captionMsg s.tasks)
      (recordedBy env k JIDS data captionMsg (s.tasks.set i BulkTask.done))
      (List.nodup_range _) (List.mem_range.2 hiN) hother hold hnew
    exact (List.perm_append_singleton m s.sliceM).trans
      ((List.Perm.cons m hp).trans hperm.symm)

theorem bulkPerm_run (env : Env) (k : BulkKind) (JIDS : List String) (data : Bytes)
    (captionMsg : String) (sched : List Nat) :
    (bulkRun env k JIDS data captionMsg sched).sliceM.Perm
      ((List.range JIDS.length).filterMap
        (recordedBy env k JIDS data captionMsg
          (bulkRun env k JIDS data captionMsg sched).tasks)) := by
  unfold bulkRun
  have : ∀ s, BulkInv env k JIDS data captionMsg s →
      s.sliceM.Perm ((List.range JIDS.length).filterMap
        (recordedBy env k JIDS data captionMsg s.tasks)) →
      (sched.foldl (bulkStep env k JIDS data captionMsg) s).sliceM.Perm
        ((List.range JIDS.length).filterMap
          (recordedBy env k JIDS data captionMsg
            (sched.foldl (bulkStep env k JIDS data captionMsg) s).tasks)) := by
    induction sched with
    | nil => intro s _ hp; exact hp
    | cons a l ih =>
      intro s hs hp
      exact ih _ (bulkInv_step env k JIDS data captionMsg s a hs)
        (bulkPerm_step env k JIDS data captionMsg s a hs hp)
  apply this _ (bulkInv_init env k JIDS data captionMsg)
  have h0 : (List.range JIDS.length).filterMap
      (recordedBy env k JIDS data captionMsg (bulkInit JIDS).tasks) = [] := by
    rw [List.filterMap_eq_nil_iff]
    intro j _
    unfold recordedBy
    simp only [bulkInit, List.getElem?_map]
    cases JIDS[j]? <;> rfl
  rw [h0]
  exact List.Perm.refl _

/-! ## Lemmas on splitting, joining and trimming -/

theorem foldl_append_singleton {α β : Type} (f : α → β) (l : List α) :
    ∀ init : List β, l.foldl (fun acc x => acc ++ [f x]) init = init ++ l.map f := by
  induction l with
  | nil => intro init; simp
  | cons x xs ih =>
    intro init
    simp only [List.foldl_cons, List.map_cons]
    rw [ih]
    simp

theorem splitChars_ne_nil (sep : Char) (l : List Char) : splitChars sep l ≠ [] := by
  cases l with
  | nil => simp [splitChars]
  | cons c cs =>
    simp only [splitChars]
    split
    · simp
    · split <;> simp

theorem splitChars_length (sep : Char) (l : List Char) :
    (splitChars sep l).length = l.count sep + 1 := by
  induction l with
  | nil => simp [splitChars]
  | cons c cs ih =>
    simp only [splitChars]
    by_cases hc : c = sep
    · subst hc
      simp [ih]
    · have hc2 : ¬ sep = c := fun h => hc h.symm
      rw [if_neg hc, List.count_cons_of_ne hc2]
      cases hs : splitChars sep cs with
      | nil => exact absurd hs (splitChars_ne_nil sep cs)
      | cons seg segs =>
        rw [hs] at ih
        simpa using ih

theorem splitChars_no_sep (sep : Char) (l : List Char) :
    ∀ seg ∈ splitChars sep l, sep ∉ seg := by
  induction l with
  | nil => simp [splitChars]
  | cons c cs ih =>
    simp only [splitChars]
    by_cases hc : c = sep
    · subst hc
      intro seg hseg
      simp only [if_true, List.mem_cons] at hseg
      rcases hseg with rfl | hseg
      · simp
      · exact ih seg hseg
    · rw [if_neg hc]
      cases hs : splitChars sep cs with
      | nil => exact absurd hs (splitChars_ne_nil sep cs)
      | cons seg0 segs =>
        rw [hs] at ih
        intro seg hseg
        simp only [List.mem_cons] at hseg
        rcases hseg with rfl | hseg
        · intro hmem
          rcases List.mem_cons.1 hmem with h | h
          · exact hc h.symm
          · exact ih seg0 (List.mem_cons_self _ _) h
        · exact ih seg (List.mem_cons_of_mem _ hseg)

theorem joinChars_splitChars (sep : Char) (l : List Char) :
    joinChars [sep] (splitChars sep l) = l := by
  induction l with
  | nil => simp [splitChars, joinChars]
  | cons c cs ih =>
    simp only [splitChars]
    by_cases hc : c = sep
    · subst hc
      rw [if_pos rfl]
      cases hs : splitChars c cs with
      | nil => exact absurd hs (splitChars_ne_nil c cs)
      | cons seg segs =>
        rw [hs] at ih
        simp [joinChars, ih]
    · rw [if_neg hc]
      cases hs : splitChars sep cs with
      | nil => exact absurd hs (splitChars_ne_nil sep cs)
      | cons seg segs =>
        rw [hs] at ih
        cases segs with
        | nil =>
          simp only [joinChars] at ih ⊢
          rw [ih]
        | cons seg2 rest =>
          simp only [joinChars] at ih ⊢
          rw [← ih]
          simp

theorem splitChars_append_sep (sep : Char) (x rest : List Char) (hx : sep ∉ x) :
    splitChars sep (x ++ sep :: rest) = x :: splitChars sep rest := by
  induction x with
  | nil => simp [splitChars]
  | cons c cs ih =>
    have hc : ¬ c = sep := fun h => hx (h ▸ List.mem_cons_self _ _)
    have hcs : sep ∉ cs := fun h => hx (List.mem_cons_of_mem _ h)
    have h := ih hcs
    show splitChars sep (c :: (cs ++ sep :: rest)) = (c :: cs) :: splitChars sep rest
    simp only [splitChars, if_neg hc]
    rw [h]

theorem splitChars_of_no_sep (sep : Char) (x : List Char) (hx : sep ∉ x) :
    splitChars sep x = [x] := by
  induction x with
  | nil => simp [splitChars]
  | cons c cs ih =>
    have hc : ¬ c = sep := fun h => hx (h ▸ List.mem_cons_self _ _)
    have hcs : sep ∉ cs := fun h => hx (List.mem_cons_of_mem _ h)
    simp only [splitChars, if_neg hc, ih hcs]

theorem splitChars_joinChars (sep : Char) (L : List (List Char)) (hne : L ≠ [])
    (hL : ∀ seg ∈ L, sep ∉ seg) : splitChars sep (joinChars [sep] L) = L := by
  induction L with
  | nil => exact absurd rfl hne
  | cons x rest ih =>
    cases rest with
    | nil =>
      simp only [joinChars]
      exact splitChars_of_no_sep sep x (hL x (List.mem_cons_self _ _))
    | cons y rest2 =>
      simp only [joinChars, List.append_assoc, List.singleton_append]
      rw [splitChars_append_sep sep x _ (hL x (List.mem_cons_self _ _))]
      rw [ih (by simp) (fun seg hseg => hL seg (List.mem_cons_of_mem _ hseg))]

theorem dropWhile_cons_head (p : Char → Bool) (l : List Char) (x : Char) (xs : List Char)
    (h : l.dropWhile p = x :: xs) : p x = false := by
  induction l with
  | nil => cases h
  | cons a as ih =>
    rw [List.dropWhile_cons] at h
    split at h
    · exact ih h
    · rename_i hpa
      cases h
      simpa using hpa

theorem trimSpaceChars_eq_nil_iff (l : List Char) :
    trimSpaceChars l = [] ↔ ∀ x ∈ l, isSpace x = true := by
  unfold trimSpaceChars
  rw [List.rdropWhile_eq_nil_iff]
  constructor
  · intro h
    cases hd : l.dropWhile isSpace with
    | nil => exact List.dropWhile_eq_nil_iff.1 hd
    | cons x xs =>
      have h1 := dropWhile_cons_head isSpace l x xs hd
      have h2 := h x (by rw [hd]; exact List.mem_cons_self _ _)
      rw [h1] at h2
      cases h2
  · intro h x hx
    exact h x (List.dropWhile_subset isSpace hx)

theorem trimSpaceChars_subset (l : List Char) : ∀ x ∈ trimSpaceChars l, x ∈ l := by
  intro x hx
  unfold trimSpaceChars at hx
  exact List.dropWhile_subset isSpace ((List.rdropWhile_prefix isSpace _).subset hx)

theorem trimSpaceChars_idempotent (l : List Char) :
    trimSpaceChars (trimSpaceChars l) = trimSpaceChars l := by
  unfold trimSpaceChars
  have hpre : ((l.dropWhile isSpace).rdropWhile isSpace) <+: l.dropWhile isSpace :=
    List.rdropWhile_prefix isSpace _
  have hdrop : ((l.dropWhile isSpace).rdropWhile isSpace).dropWhile isSpace =
      (l.dropWhile isSpace).rdropWhile isSpace := by
    cases ht : (l.dropWhile isSpace).rdropWhile isSpace with
    | nil => rfl
    | cons x xs =>
      rw [ht] at hpre
      obtain ⟨rest, hrest⟩ := hpre
      have hx := dropWhile_cons_head isSpace l x (xs ++ rest) (by rw [← hrest]; rfl)
      rw [List.dropWhile_cons_of_neg (by simp [hx])]
  rw [hdrop, List.rdropWhile_idempotent]

theorem mk_eq_empty_iff (l : List Char) : String.mk l = "" ↔ l = [] := by
  constructor
  · intro h
    have := congrArg String.data h
    simpa using this
  · intro h
    rw [h]

theorem validate_eq (stringInput : String) :
    validateStringArrayAsStringArray stringInput =
      if TrimSpace stringInput = "" then .error "empty loanIds"
      else .ok ((Split stringInput ',').map TrimSpace) := by
  unfold validateStringArrayAsStringArray
  split
  · rfl
  · simp only [foldl_append_singleton, List.nil_append]

theorem joinChars_mem_sep (sep : Char) (x y : List Char) (rest : List (List Char)) :
    sep ∈ joinChars [sep] (x :: y :: rest) := by
  simp [joinChars]

/-! ## Lemmas on the upload handlers -/

theorem move_upload_kind {env : Env} {k : BulkKind} {data : Bytes} {captionMsg : String}
    {i : Nat} {jid : String} {t t2 : BulkTask} {ms : List Message} {es : List String}
    {tr : List Effect} (hm : Move env k data captionMsg i jid t t2 ms es tr) :
    ∀ ev ∈ tr, ∀ j d kind, ev = Effect.Upload j d kind → kind = k.mediaType := by
  cases hm <;> cases k <;> simp [BulkKind.save, BulkKind.mediaType]

theorem bulkRun_upload_kind (env : Env) (k : BulkKind) (JIDS : List String) (data : Bytes)
    (captionMsg : String) (sched : List Nat) :
    ∀ ev ∈ (bulkRun env k JIDS data captionMsg sched).trace, ∀ j d kind,
      ev = Effect.Upload j d kind → kind = k.mediaType := by
  unfold bulkRun
  have : ∀ s : BulkState,
      (∀ ev ∈ s.trace, ∀ j d kind, ev = Effect.Upload j d kind → kind = k.mediaType) →
      ∀ ev ∈ (sched.foldl (bulkStep env k JIDS data captionMsg) s).trace, ∀ j d kind,
        ev = Effect.Upload j d kind → kind = k.mediaType := by
    induction sched with
    | nil => intro s hs; exact hs
    | cons a l ih =>
      intro s hs
      apply ih
      rcases bulkStep_cases env k JIDS data captionMsg s a with
        ⟨he, _⟩ | ⟨jid, t, t2, ms, es, tr, _, _, hm, he⟩
      · rw [he]
        exact hs
      · rw [he]
        intro ev hev
        rcases List.mem_append.1 hev with h | h
        · exact hs ev h
        · exact move_upload_kind hm ev h
  apply this
  intro ev hev
  simp [bulkInit] at hev

theorem handleSendImage_upload_kind (env : Env) (rawJID : String) (userID : Int)
    (data : Bytes) (captionMsg : String) :
    ∀ ev ∈ (handleSendImage env rawJID userID data captionMsg).2, ∀ j d kind,
      ev = Effect.Upload j d kind → kind = MediaType.MediaImage := by
  intro ev hev j d kind he
  subst he
  cases hp : env.parseJID rawJID with
  | none => simp [handleSendImage, hp] at hev
  | some r =>
    cases hu : env.Upload 0 data MediaType.MediaImage with
    | error e =>
      simp [handleSendImage, hp, hu] at hev
      exact hev.2.2
    | ok up =>
      cases hs : env.SendMessage 0 r (createImageMessage env up data captionMsg) with
      | error e =>
        simp [handleSendImage, hp, hu, hs] at hev
        exact hev.2.2
      | ok resp =>
        cases hm : env.insertMessages resp.ID env.storeID r.str "" "media" resp.Timestamp
            true "" userID with
        | some e =>
          simp [handleSendImage, hp, hu, hs, hm] at hev
          exact hev.2.2
        | none =>
          cases hl : env.insertLastMessages resp.ID env.storeID r.str "" "media"
              resp.Timestamp true "" userID with
          | some e =>
            simp [handleSendImage, hp, hu, hs, hm, hl] at hev
            exact hev.2.2
          | none =>
            simp [handleSendImage, hp, hu, hs, hm, hl] at hev
            exact hev.2.2

theorem handleSendDocument_upload_kind (env : Env) (rawJID fileName : String) (userID : Int)
    (data : Bytes) (captionMsg : String) :
    ∀ ev ∈ (handleSendDocument env rawJID fileName userID data captionMsg).2, ∀ j d kind,
      ev = Effect.Upload j d kind → kind = MediaType.MediaDocument := by
  intro ev hev j d kind he
  subst he
  cases hp : env.parseJID rawJID with
  | none => simp [handleSendDocument, hp] at hev
  | some r =>
    cases hu : env.Upload 0 data MediaType.MediaDocument with
    | error e =>
      simp [handleSendDocument, hp, hu] at hev
      exact hev.2.2
    | ok up =>
      cases hs : env.SendMessage 0 r (createDocumentMessage env fileName up data captionMsg) with
      | error e =>
        simp [handleSendDocument, hp, hu, hs] at hev
        exact hev.2.2
      | ok resp =>
        cases hm : env.insertMessages resp.ID env.storeID r.str "" "media" resp.Timestamp
            true fileName userID with
        | some e =>
          simp [handleSendDocument, hp, hu, hs, hm] at hev
          exact hev.2.2
        | none =>
          cases hl : env.insertLastMessages resp.ID env.storeID r.str "" "media"
              resp.Timestamp true fileName userID with
          | some e =>
            simp [handleSendDocument, hp, hu, hs, hm, hl] at hev
            exact hev.2.2
          | none =>
            simp [handleSendDocument, hp, hu, hs, hm, hl] at hev
            exact hev.2.2

theorem isImage_iff (mimeType : String) :
    isImage mimeType = true ↔ (mimeType = "image/jpeg" ∨ mimeType = "image/png") := by
  unfold isImage
  simp only [stringContains]
  constructor
  · intro h
    split at h
    · rename_i h1
      exact Or.inl h1.symm
    · split at h
      · rename_i h2
        exact Or.inr h2.symm
      · cases h
  · rintro (rfl | rfl)
    · simp
    · simp

/-! ## C11: the response of `serveSendText` -/

/-- C11, counterexample. The claim says that a `/send` request whose send
fails is answered differently from one whose send succeeds. The same request is
answered with the same response when the send succeeds and when the session is
down and the send fails. -/
theorem sendText_response_ignores_outcome :
    ¬ (∀ (json : Json) (envOk envFail : Env) (r : SendRequest) (body : String)
        (msgBody : MessageBodyText) (recipient : JID) (resp : SendResponse),
        r.Method ≠ "OPTIONS" → r.Body = .ok body → json.UnmarshalText body = .ok msgBody →
        envOk.parseJID msgBody.Recipient = some recipient →
        envOk.SendMessage 0 recipient (WaMessage.Conversation msgBody.Message) = .ok resp →
        (envFail.parseJID msgBody.Recipient = none ∨
          ∃ err, envFail.parseJID msgBody.Recipient = some recipient ∧
            envFail.SendMessage 0 recipient (WaMessage.Conversation msgBody.Message) =
              .error err) →
        (serveSendText json envOk true r).1 ≠ (serveSendText json envFail true r).1) := by
  intro h
  exact h sampleJson sampleEnv sendDownEnv ⟨"POST", .ok "111 hello"⟩ "111 hello"
    ⟨"111", "hello"⟩ ⟨"111@s.whatsapp.net"⟩ ⟨"ID-111@s.whatsapp.net", "t0"⟩
    (by decide) rfl rfl rfl rfl
    (Or.inr ⟨"websocket not connected", rfl, rfl⟩) (by decide)

/-- C11, amended. For every `/send` request handled by `serveSendText` while
the client is logged in and the body decodes, the response does not depend on
the outcome of the send: it is status 200 with the decoded body encoded again
as JSON (status 400 if that encoding fails), whatever `parseJID` and
`cli.SendMessage` answer; `handleSendNewTextMessage` is called once with the
decoded message and recipient and its outcome is only logged. -/
theorem sendText_response_echoes_body (json : Json) (env : Env) (r : SendRequest)
    (body : String) (msgBody : MessageBodyText)
    (hm : r.Method ≠ "OPTIONS") (hb : r.Body = .ok body)
    (hd : json.UnmarshalText body = .ok msgBody) :
    (serveSendText json env true r).2 =
      handleSendNewTextMessage env msgBody.Message msgBody.Recipient ∧
    (∀ respJson, json.MarshalText msgBody = .ok respJson →
      (serveSendText json env true r).1 =
        ⟨200, sendTextCors ++ [("Content-Type", "application/json")], respJson⟩) ∧
    (∀ err, json.MarshalText msgBody = .error err →
      (serveSendText json env true r).1 = httpError sendTextCors "Error decoding JSON" 400) ∧
    (∀ env2 : Env, (serveSendText json env2 true r).1 = (serveSendText json env true r).1) := by
  have key : ∀ e : Env, serveSendText json e true r =
      (match json.MarshalText msgBody with
        | .error _ => httpError sendTextCors "Error decoding JSON" 400
        | .ok respJson =>
          ⟨200, sendTextCors ++ [("Content-Type", "application/json")], respJson⟩,
        handleSendNewTextMessage e msgBody.Message msgBody.Recipient) := by
    intro e
    unfold serveSendText
    simp only [hm, if_false, if_true, hb, hd]
    cases json.MarshalText msgBody <;> rfl
  refine ⟨by rw [key], ?_, ?_, ?_⟩
  · intro respJson hj
    rw [key, hj]
  · intro err hj
    rw [key, hj]
  · intro env2
    rw [key, key]

/-- C11, witness: the same request with the send succeeding and with the
session down. -/
theorem sendText_response_echoes_body_witness :
    (serveSendText sampleJson sampleEnv true ⟨"POST", .ok "111 hello"⟩).1 =
      ⟨200, sendTextCors ++ [("Content-Type", "application/json")], "111 hello"⟩ ∧
    (serveSendText sampleJson sendDownEnv true ⟨"POST", .ok "111 hello"⟩).1 =
      (serveSendText sampleJson sampleEnv true ⟨"POST", .ok "111 hello"⟩).1 ∧
    Effect.Errorf "Error sending message: websocket not connected" ∈
      (serveSendText sampleJson sendDownEnv true ⟨"POST", .ok "111 hello"⟩).2 :=
  have h := sendText_response_echoes_body sampleJson sampleEnv ⟨"POST", .ok "111 hello"⟩
    "111 hello" ⟨"111", "hello"⟩ (by decide) rfl rfl
  ⟨h.2.1 "111 hello" rfl, h.2.2.2 sendDownEnv, by decide⟩

/-! ## C12: handlers and the ingress loops -/

/-- C12, the code at the failing input. After the loop of `serveWs` has handed
a command to `handleCmd`, it can read no further message until that call
returns; the loop of `main` reads and hands over the next line while the
handler of the first is still running. -/
theorem serveWs_waits_for_handler :
    (∀ (s : LoopState) (read : Except String Command), s.inHandler = true →
      serveWsStep s (LoopLabel.message read) = none) ∧
    (∀ (s : LoopState) (cmd : Command), s.exited = false → s.inHandler = false →
      serveWsStep s (LoopLabel.message (.ok cmd)) =
        some { s with started := s.started ++ [cmd], inHandler := true }) ∧
    loopRunFrom serveWsStep loopInit
      [LoopLabel.message (.ok ⟨"send", ["111", "a"], 7⟩),
        LoopLabel.message (.ok ⟨"send", ["222", "b"], 7⟩)] = none ∧
    loopRunFrom serveWsStep loopInit
      [LoopLabel.message (.ok ⟨"send", ["111", "a"], 7⟩), LoopLabel.handlerReturns 0,
        LoopLabel.message (.ok ⟨"send", ["222", "b"], 7⟩)] =
      some ⟨[⟨"send", ["111", "a"], 7⟩, ⟨"send", ["222", "b"], 7⟩], [0], true, false⟩ ∧
    loopRunFrom (mainLoopStep sampleEnv) loopInit
      [LoopLabel.line "send 111 a", LoopLabel.line "send 222 b"] =
      some ⟨[⟨"send", ["111", "a"], 0⟩, ⟨"send", ["222", "b"], 0⟩], [], false, false⟩ := by
  refine ⟨?_, ?_, by decide, by decide, by decide⟩
  · intro s read hh
    simp [serveWsStep, hh]
  · intro s cmd he hh
    simp [serveWsStep, he, hh, serveWsBody]

/-! ## C13: all recipients succeed -/

/-- C13. For both bulk media senders (`k`): under a fair schedule the sender
returns; whenever it returns, `sliceM` and `errs` together hold one entry per
recipient; and if every recipient parses (to `recipient i`), uploads and sends
successfully (with answer `resp i`), the returned error is nil and the returned
list has exactly `len(JIDS)` Messages and is a permutation of the Messages of
the recipients, each made of the ID of its send, its parsed recipient, the
type `media`, an empty text, `FromMe` true and, for documents, the file name. -/
theorem bulk_all_succeed_returns_permutation (env : Env) (k : BulkKind)
    (JIDS : List String) (data : Bytes) (captionMsg : String) (sched : List Nat)
    (recipient : Nat → JID) (up : Nat → UploadResponse) (resp : Nat → SendResponse) :
    (Fair JIDS.length sched → (bulkSend env k JIDS data captionMsg sched).isSome = true) ∧
    (∀ r, bulkSend env k JIDS data captionMsg sched = some r →
      (bulkRun env k JIDS data captionMsg sched).sliceM.length +
        (bulkRun env k JIDS data captionMsg sched).errs.length = JIDS.length) ∧
    ((∀ i jid, JIDS[i]? = some jid →
        env.parseJID jid = some (recipient i) ∧
        env.Upload i data k.mediaType = .ok (up i) ∧
        env.SendMessage i (recipient i) (k.createMessage env (up i) data captionMsg) =
          .ok (resp i)) →
      ∀ r, bulkSend env k JIDS data captionMsg sched = some r →
        r.2 = none ∧ r.1.length = JIDS.length ∧
        r.1.Perm ((List.range JIDS.length).map (fun i =>
          (⟨(resp i).ID, (recipient i).str, "media", "", true, k.fileName⟩ : Message)))) := by
  refine ⟨fun hf => bulkReturn_isSome _ (bulkRun_allDone env k JIDS data captionMsg sched hf),
    ?_, ?_⟩
  · intro r hr
    exact bulk_count_of_allDone env k JIDS data captionMsg sched (bulkReturn_cases _ r hr).1
  · intro hall r hr
    obtain ⟨hdone, hcase⟩ := bulkReturn_cases _ r hr
    have hinv := bulkInv_run env k JIDS data captionMsg sched
    have hcount := bulk_count_of_allDone env k JIDS data captionMsg sched hdone
    have hout : ∀ i jid, JIDS[i]? = some jid →
        bulkOutcome env k data captionMsg i jid = .ok (k.message (resp i) (recipient i)) := by
      intro i jid hJ
      obtain ⟨h1, h2, h3⟩ := hall i jid hJ
      simp [bulkOutcome, h1, h2, h3]
    have hno : ¬ ∃ i jid e, JIDS[i]? = some jid ∧
        bulkOutcome env k data captionMsg i jid = .error e := by
      rintro ⟨i, jid, e, hJ, he⟩
      rw [hout i jid hJ] at he
      cases he
    have herrs := (bulk_recorded_of_allDone env k JIDS data captionMsg sched hdone).2.2.2 hno
    have hrec : (List.range JIDS.length).filterMap
        (recordedBy env k JIDS data captionMsg
          (bulkRun env k JIDS data captionMsg sched).tasks) =
        (List.range JIDS.length).map (fun i => k.message (resp i) (recipient i)) := by
      rw [← List.filterMap_eq_map]
      apply List.filterMap_congr
      intro i hi
      have hiN := List.mem_range.1 hi
      have hJ : JIDS[i]? = some JIDS[i] := List.getElem?_eq_getElem hiN
      unfold recordedBy
      rw [getElem?_done_of_all hdone hinv.len hJ, hJ]
      simp [hout i _ hJ]
    have hmsg : (fun i => k.message (resp i) (recipient i)) = (fun i =>
        (⟨(resp i).ID, (recipient i).str, "media", "", true, k.fileName⟩ : Message)) := by
      funext i
      cases k <;> rfl
    have hperm := bulkPerm_run env k JIDS data captionMsg sched
    rw [hrec, hmsg] at hperm
    rcases hcase with ⟨_, rfl⟩ | ⟨err, rest, herrs2, _⟩
    · refine ⟨rfl, ?_, hperm⟩
      rw [herrs] at hcount
      simpa using hcount
    · rw [herrs] at herrs2
      cases herrs2

/-- C13, witness: two recipients that succeed, under an interleaving schedule
in which the second finishes first; the document sender returns their two
Messages with the file name, the second recipient first. -/
theorem bulk_all_succeed_returns_permutation_witness :
    bulkSend sampleEnv (BulkKind.document "f.pdf") ["111", "333"] [7] "c"
      [1, 0, 1, 0, 1, 1, 1, 0, 0, 0] =
      some ([⟨"ID-333@s.whatsapp.net", "333@s.whatsapp.net", "media", "", true, "f.pdf"⟩,
        ⟨"ID-111@s.whatsapp.net", "111@s.whatsapp.net", "media", "", true, "f.pdf"⟩], none) ∧
    ([⟨"ID-333@s.whatsapp.net", "333@s.whatsapp.net", "media", "", true, "f.pdf"⟩,
        ⟨"ID-111@s.whatsapp.net", "111@s.whatsapp.net", "media", "", true, "f.pdf"⟩] :
      List Message).Perm
      ((List.range 2).map (fun i =>
        (⟨"ID-" ++ (["111", "333"].getD i "") ++ "@s.whatsapp.net",
          (["111", "333"].getD i "") ++ "@s.whatsapp.net", "media", "", true, "f.pdf"⟩ :
          Message))) := by
  have hr : bulkSend sampleEnv (BulkKind.document "f.pdf") ["111", "333"] [7] "c"
      [1, 0, 1, 0, 1, 1, 1, 0, 0, 0] =
      some ([⟨"ID-333@s.whatsapp.net", "333@s.whatsapp.net", "media", "", true, "f.pdf"⟩,
        ⟨"ID-111@s.whatsapp.net", "111@s.whatsapp.net", "media", "", true, "f.pdf"⟩], none) := by
    decide
  have h := (bulk_all_succeed_returns_permutation sampleEnv (BulkKind.document "f.pdf")
    ["111", "333"] [7] "c" [1, 0, 1, 0, 1, 1, 1, 0, 0, 0]
    (fun i => ⟨(["111", "333"].getD i "") ++ "@s.whatsapp.net"⟩)
    (fun _ => ⟨"https://mmg/f.enc", "/v/f.enc", [1], [2], [3]⟩)
    (fun i => ⟨"ID-" ++ (["111", "333"].getD i "") ++ "@s.whatsapp.net", "t0"⟩)).2.2
    (by
      intro i jid hJ
      have hi : i < 2 := by
        by_contra hc
        rw [List.getElem?_eq_none (by simpa using hc)] at hJ
        cases hJ
      interval_cases i <;> simp at hJ <;> subst hJ <;> exact ⟨rfl, rfl, rfl⟩)
    _ hr
  exact ⟨hr, h.2.2⟩

/-! ## C14: what `validateStringArrayAsStringArray` returns -/

/-- C14. The function `validateStringArrayAsStringArray` returns an error
exactly when its input is empty after trimming, which is when all its
characters are white space. For every other input it returns the segments of
`strings.Split(input, ",")`, each trimmed, in order: as many as the input has
commas plus one. The segments are the comma-free pieces that joined with
commas give the input back, so empty entries stay, as in `a,,b` and `,`. -/
theorem validate_splits_and_trims (stringInput : String) :
    ((∃ err, validateStringArrayAsStringArray stringInput = .error err) ↔
      TrimSpace stringInput = "") ∧
    (TrimSpace stringInput = "" ↔ ∀ c ∈ stringInput.data, isSpace c = true) ∧
    (TrimSpace stringInput ≠ "" →
      validateStringArrayAsStringArray stringInput =
        .ok ((Split stringInput ',').map TrimSpace)) ∧
    ((Split stringInput ',').map TrimSpace).length = stringInput.data.count ',' + 1 ∧
    (∀ i : Nat, ((Split stringInput ',').map TrimSpace)[i]? =
      (Split stringInput ',')[i]?.map TrimSpace) ∧
    Join (Split stringInput ',') "," = stringInput ∧
    (∀ seg ∈ Split stringInput ',', ',' ∉ seg.data) ∧
    validateStringArrayAsStringArray "a,,b" = .ok ["a", "", "b"] ∧
    validateStringArrayAsStringArray "," = .ok ["", ""] ∧
    validateStringArrayAsStringArray " 111 ,222 " = .ok ["111", "222"] := by
  refine ⟨?_, ?_, ?_, ?_, ?_, ?_, ?_, rfl, rfl, rfl⟩
  · rw [validate_eq]
    constructor
    · rintro ⟨err, h⟩
      split at h
      · assumption
      · cases h
    · intro h
      exact ⟨"empty loanIds", by rw [if_pos h]⟩
  · unfold TrimSpace
    rw [mk_eq_empty_iff, trimSpaceChars_eq_nil_iff]
  · intro h
    rw [validate_eq, if_neg h]
  · simp [Split, splitChars_length]
  · intro i
    exact List.getElem?_map _ _ _
  · unfold Join Split
    simp only [List.map_map]
    have h1 : (String.data ∘ String.mk) = (id : List Char → List Char) := by
      funext l
      rfl
    rw [h1, List.map_id]
    rw [joinChars_splitChars]
  · intro seg hseg
    unfold Split at hseg
    rw [List.mem_map] at hseg
    obtain ⟨l, hl, rfl⟩ := hseg
    exact splitChars_no_sep ',' _ l hl

/-! ## C15: parsing the joined result again -/

/-- C15. For every input that `validateStringArrayAsStringArray` accepts with
result `L`, the string `strings.Join(L, ",")` is accepted too and its result is
again `L`. -/
theorem validate_join_roundtrip (stringInput : String) (L : List String)
    (h : validateStringArrayAsStringArray stringInput = .ok L) :
    validateStringArrayAsStringArray (Join L ",") = .ok L := by
  rw [validate_eq] at h
  split at h
  · cases h
  rename_i hne
  simp only [Except.ok.injEq] at h
  have hne2 : trimSpaceChars stringInput.data ≠ [] := by
    intro hc
    exact hne ((mk_eq_empty_iff _).2 hc)
  -- the trimmed segments, as characters
  have hdata : L.map String.data = (splitChars ',' stringInput.data).map trimSpaceChars := by
    rw [← h]
    simp only [Split, List.map_map]
    apply List.map_congr_left
    intro l _
    rfl
  have hL : L = ((splitChars ',' stringInput.data).map trimSpaceChars).map String.mk := by
    rw [← h]
    simp only [Split, List.map_map]
    apply List.map_congr_left
    intro l _
    rfl
  have hsep : (",".data : List Char) = [','] := rfl
  have hTne : (splitChars ',' stringInput.data).map trimSpaceChars ≠ [] := by
    intro hc
    exact splitChars_ne_nil ',' stringInput.data (List.map_eq_nil_iff.1 hc)
  have hTno : ∀ seg ∈ (splitChars ',' stringInput.data).map trimSpaceChars, ',' ∉ seg := by
    intro seg hseg hmem
    rw [List.mem_map] at hseg
    obtain ⟨l, hl, rfl⟩ := hseg
    exact splitChars_no_sep ',' _ l hl (trimSpaceChars_subset l _ hmem)
  have hjoin : (Join L ",").data =
      joinChars [','] ((splitChars ',' stringInput.data).map trimSpaceChars) := by
    unfold Join
    rw [hdata, hsep]
  rw [validate_eq]
  have hacc : ¬ TrimSpace (Join L ",") = "" := by
    unfold TrimSpace
    rw [mk_eq_empty_iff, hjoin, trimSpaceChars_eq_nil_iff]
    intro hall
    cases hs : splitChars ',' stringInput.data with
    | nil => exact splitChars_ne_nil _ _ hs
    | cons seg segs =>
      cases segs with
      | nil =>
        rw [hs] at hall
        simp only [List.map_cons, List.map_nil, joinChars] at hall
        have hseg : seg = stringInput.data := by
          have := joinChars_splitChars ',' stringInput.data
          rw [hs] at this
          simpa [joinChars] using this
        rw [hseg] at hall
        have : trimSpaceChars (trimSpaceChars stringInput.data) = [] :=
          (trimSpaceChars_eq_nil_iff _).2 hall
        rw [trimSpaceChars_idempotent] at this
        exact hne2 this
      | cons seg2 rest =>
        rw [hs] at hall
        have hc := hall ',' (by
          simp only [List.map_cons]
          exact joinChars_mem_sep ',' _ _ _)
        revert hc
        decide
  rw [if_neg hacc]
  congr 1
  have hsplit : Split (Join L ",") ',' =
      ((splitChars ',' stringInput.data).map trimSpaceChars).map String.mk := by
    unfold Split
    rw [hjoin, splitChars_joinChars ',' _ hTne hTno]
  rw [hsplit, hL]
  simp only [List.map_map]
  apply List.map_congr_left
  intro l _
  show TrimSpace (String.mk (trimSpaceChars l)) = String.mk (trimSpaceChars l)
  unfold TrimSpace
  rw [trimSpaceChars_idempotent]

/-- C15, witness: the input with blanks around its entries and an empty entry. -/
theorem validate_join_roundtrip_witness :
    validateStringArrayAsStringArray " 111 , ,222 " = .ok ["111", "", "222"] ∧
    Join ["111", "", "222"] "," = "111,,222" ∧
    validateStringArrayAsStringArray (Join ["111", "", "222"] ",") =
      .ok ["111", "", "222"] :=
  ⟨rfl, rfl, validate_join_roundtrip " 111 , ,222 " ["111", "", "222"] rfl⟩

/-! ## C16: other lines while a pairing is pending -/

/-- While `isWaitingForPair` is set, a non-empty value received from `input`
other than exactly `r` or `a` makes the loop only `continue`: the step leaves
the whole state as it was. -/
theorem loop_drops_other_received_lines (env : Env) (s : PairState) (cmd : String)
    (hw : s.isWaitingForPair = true) (ht : s.terminal = TerminalPC.reading)
    (hne : cmd.length ≠ 0) (hr : cmd ≠ "r") (ha : cmd ≠ "a") :
    mainLoopBody env true cmd = LoopAction.skip ∧
    pairStep env s (PairLabel.termLine cmd) = some s := by
  have hb : mainLoopBody env true cmd = LoopAction.skip := by
    simp [mainLoopBody, hne, hr, ha]
  exact ⟨hb, by simp [pairStep, ht, hw, hb]⟩

theorem stdinReader_cases (text : String) :
    (stdinReader text = none ∧ (TrimSpace text).length = 0) ∨
    (stdinReader text = some (TrimSpace text) ∧ (TrimSpace text).length ≠ 0) := by
  unfold stdinReader
  by_cases h : (TrimSpace text).length > 0
  · exact Or.inr ⟨by rw [if_pos h], by omega⟩
  · exact Or.inl ⟨by rw [if_neg h], by omega⟩

/-- C16, counterexample. The claim says that while a pairing is pending every
non-empty terminal line other than exactly `r` or `a` is dropped. The reader
goroutine trims each line before the loop sees it, so the line made of a
blank, `r` and a blank is not dropped: the loop goes to the send of `true` on
`pairRejectChan`. -/
theorem pending_pair_padded_token_decides :
    ¬ (∀ (env : Env) (s : PairState) (text : String),
        s.isWaitingForPair = true → s.terminal = TerminalPC.reading →
        text.length ≠ 0 → text ≠ "r" → text ≠ "a" →
        pairStepTyped env s text = some s) := by
  intro h
  have h1 := h sampleEnv ⟨none, true, CallbackPC.selecting 3, TerminalPC.reading, 0, [], []⟩
    " r " rfl rfl (by decide) (by decide) (by decide)
  revert h1
  decide

/-- C16, amended. While `isWaitingForPair` is set and the loop of `main` is
reading, every terminal line whose text after the reader's `strings.TrimSpace`
is other than exactly `r` or `a` is dropped: the step leaves the whole state as
it was, so nothing is written to `pairRejectChan`, nothing is handed to
`handleCmd`, and every later run goes on as if the line had not been typed. A
line that trims to `r` or to `a` is a decision: the loop goes to the send of
`true` or of `false`. -/
theorem pending_pair_drops_lines_not_trimming_to_token (env : Env) (s : PairState)
    (text : String) (hw : s.isWaitingForPair = true) (ht : s.terminal = TerminalPC.reading)
    (hr : TrimSpace text ≠ "r") (ha : TrimSpace text ≠ "a") :
    pairStepTyped env s text = some s ∧
    (∀ later, (pairStepTyped env s text).bind (fun s2 => pairRunFrom env s2 later) =
      pairRunFrom env s later) ∧
    (∀ typed, TrimSpace typed = "r" →
      pairStepTyped env s typed = some { s with terminal := TerminalPC.sending true }) ∧
    (∀ typed, TrimSpace typed = "a" →
      pairStepTyped env s typed = some { s with terminal := TerminalPC.sending false }) := by
  have hdrop : pairStepTyped env s text = some s := by
    unfold pairStepTyped
    rcases stdinReader_cases text with ⟨hnone, _⟩ | ⟨hsome, hlen⟩
    · rw [hnone]
    · rw [hsome]
      exact (loop_drops_other_received_lines env s _ hw ht hlen hr ha).2
  refine ⟨hdrop, ?_, ?_, ?_⟩
  · intro later
    rw [hdrop]
    rfl
  · intro typed htyped
    have hread : stdinReader typed = some "r" := by
      unfold stdinReader
      rw [htyped]
      rfl
    have hb : mainLoopBody env true "r" = LoopAction.send true := by
      have h0 : ¬ "r".length = 0 := by decide
      simp [mainLoopBody, h0]
    unfold pairStepTyped
    rw [hread]
    simp [pairStep, ht, hw, hb]
  · intro typed htyped
    have hread : stdinReader typed = some "a" := by
      unfold stdinReader
      rw [htyped]
      rfl
    have hb : mainLoopBody env true "a" = LoopAction.send false := by
      have h0 : ¬ "a".length = 0 := by decide
      have h1 : ¬ "a" = "r" := by decide
      simp [mainLoopBody, h0, h1]
    unfold pairStepTyped
    rw [hread]
    simp [pairStep, ht, hw, hb]

/-- C16, witness: with a pairing pending, the typed lines `R`, `send 111 hi`
with blanks around it, and a line of blanks are dropped, and after the callback
has timed out and returned nothing has been handed to `handleCmd`; the line
`r` with blanks around it is a decision. -/
theorem pending_pair_drops_lines_not_trimming_to_token_witness :
    pairStepTyped sampleEnv
      ⟨none, true, CallbackPC.selecting 3, TerminalPC.reading, 0, [], []⟩ "R" =
      some ⟨none, true, CallbackPC.selecting 3, TerminalPC.reading, 0, [], []⟩ ∧
    pairStepTyped sampleEnv
      ⟨none, true, CallbackPC.selecting 3, TerminalPC.reading, 0, [], []⟩ "  send 111 hi " =
      some ⟨none, true, CallbackPC.selecting 3, TerminalPC.reading, 0, [], []⟩ ∧
    pairStepTyped sampleEnv
      ⟨none, true, CallbackPC.selecting 3, TerminalPC.reading, 0, [], []⟩ "   " =
      some ⟨none, true, CallbackPC.selecting 3, TerminalPC.reading, 0, [], []⟩ ∧
    pairStepTyped sampleEnv
      ⟨none, true, CallbackPC.selecting 3, TerminalPC.reading, 0, [], []⟩ " r " =
      some ⟨none, true, CallbackPC.selecting 3, TerminalPC.sending true, 0, [], []⟩ ∧
    pairRun sampleEnv [PairLabel.cbStart, PairLabel.termLine "send 111 hi", PairLabel.tick,
      PairLabel.tick, PairLabel.tick, PairLabel.cbTimeout, PairLabel.cbReturn] =
      some ⟨none, false, CallbackPC.idle, TerminalPC.reading, 3, [true], []⟩ :=
  ⟨(pending_pair_drops_lines_not_trimming_to_token sampleEnv
      ⟨none, true, CallbackPC.selecting 3, TerminalPC.reading, 0, [], []⟩ "R"
      rfl rfl (by decide) (by decide)).1,
    (pending_pair_drops_lines_not_trimming_to_token sampleEnv
      ⟨none, true, CallbackPC.selecting 3, TerminalPC.reading, 0, [], []⟩ "  send 111 hi "
      rfl rfl (by decide) (by decide)).1,
    (pending_pair_drops_lines_not_trimming_to_token sampleEnv
      ⟨none, true, CallbackPC.selecting 3, TerminalPC.reading, 0, [], []⟩ "   "
      rfl rfl (by decide) (by decide)).1,
    (pending_pair_drops_lines_not_trimming_to_token sampleEnv
      ⟨none, true, CallbackPC.selecting 3, TerminalPC.reading, 0, [], []⟩ "R"
      rfl rfl (by decide) (by decide)).2.2.1 " r " (by decide),
    by decide⟩

/-! ## C17: image or document -/

/-- C17. The function `isImage` equals `stringContains` on the two image types
and is true exactly for `image/jpeg` and `image/png`. Both `uploadHandler` and
`newUploadHandler` pick the image sender when `isImage` holds of the detected
type and the document sender otherwise, so every upload call they make has the
image kind exactly when the detected type is one of the two. -/
theorem upload_handlers_classify_alike (env : Env) (rawJID fileName captionMsg : String)
    (userID : Int) (data : Bytes) (sliceJID : List String) (sched : List Nat) :
    (∀ m, isImage m = stringContains ["image/jpeg", "image/png"] m) ∧
    (∀ m, isImage m = true ↔ (m = "image/jpeg" ∨ m = "image/png")) ∧
    uploadHandlerSend env rawJID fileName userID data captionMsg =
      (if isImage (env.DetectContentType data) then
        handleSendImage env rawJID userID data captionMsg
      else handleSendDocument env rawJID fileName userID data captionMsg) ∧
    newUploadHandlerSend env sliceJID fileName data captionMsg sched =
      (if isImage (env.DetectContentType data) then
        newHandleSendImage env sliceJID data captionMsg sched
      else newHandleSendDocument env sliceJID fileName data captionMsg sched) ∧
    newUploadHandlerSend env sliceJID fileName data captionMsg sched =
      bulkSend env (newUploadKind (env.DetectContentType data) fileName) sliceJID data
        captionMsg sched ∧
    (∀ ev ∈ (uploadHandlerSend env rawJID fileName userID data captionMsg).2, ∀ j d kind,
      ev = Effect.Upload j d kind →
      (kind = MediaType.MediaImage ↔ isImage (env.DetectContentType data) = true)) ∧
    (∀ ev ∈ (bulkRun env (newUploadKind (env.DetectContentType data) fileName) sliceJID data
        captionMsg sched).trace, ∀ j d kind,
      ev = Effect.Upload j d kind →
      (kind = MediaType.MediaImage ↔ isImage (env.DetectContentType data) = true)) := by
  refine ⟨fun _ => rfl, isImage_iff, rfl, rfl, ?_, ?_, ?_⟩
  · unfold newUploadHandlerSend newUploadKind newHandleSendImage newHandleSendDocument
    split <;> rfl
  · intro ev hev j d kind he
    have hdef : uploadHandlerSend env rawJID fileName userID data captionMsg =
        (if isImage (env.DetectContentType data) then
          handleSendImage env rawJID userID data captionMsg
        else handleSendDocument env rawJID fileName userID data captionMsg) := rfl
    rw [hdef] at hev
    by_cases hi : isImage (env.DetectContentType data) = true
    · rw [if_pos hi] at hev
      have := handleSendImage_upload_kind env rawJID userID data captionMsg ev hev j d kind he
      simp [this, hi]
    · rw [if_neg hi] at hev
      have := handleSendDocument_upload_kind env rawJID fileName userID data captionMsg
        ev hev j d kind he
      simp [this, hi]
  · intro ev hev j d kind he
    have hk := bulkRun_upload_kind env _ sliceJID data captionMsg sched ev hev j d kind he
    by_cases hi : isImage (env.DetectContentType data) = true
    · simp [hk, newUploadKind, hi, BulkKind.mediaType]
    · simp [hk, newUploadKind, hi, BulkKind.mediaType]

/-- C17, witness: a PNG file, detected as `image/png`, goes to the image sender
in both handlers, a PDF file, detected as `application/pdf`, to the document
sender. -/
theorem upload_handlers_classify_alike_witness :
    isImage "image/png" = true ∧
    isImage "application/pdf" = false ∧
    (uploadHandler sampleEnv sampleAtoi
      ⟨"POST", .ok ⟨.ok ("a.png", .ok pngData), "111", "7", "c"⟩⟩).2.head? =
      some (Effect.Upload 0 pngData MediaType.MediaImage) ∧
    (uploadHandler sampleEnv sampleAtoi
      ⟨"POST", .ok ⟨.ok ("a.pdf", .ok pdfData), "111", "7", "c"⟩⟩).2.head? =
      some (Effect.Upload 0 pdfData MediaType.MediaDocument) ∧
    newUploadHandlerSend sampleEnv ["111"] "a.png" pngData "c" [0, 0, 0, 0, 0] =
      some ([⟨"ID-111@s.whatsapp.net", "111@s.whatsapp.net", "media", "", true, ""⟩], none) ∧
    newUploadHandlerSend sampleEnv ["111"] "a.pdf" pdfData "c" [0, 0, 0, 0, 0] =
      some ([⟨"ID-111@s.whatsapp.net", "111@s.whatsapp.net", "media", "", true, "a.pdf"⟩],
        none) ∧
    newUploadHandler sampleJson sampleEnv
      ⟨"POST", .ok ⟨some [("a.pdf", .ok (.ok pdfData))], " 111 , 333", "c"⟩⟩
      [[0, 1, 0, 1, 0, 1, 0, 1, 0, 1]] =
      some ⟨200, newUploadCors ++ [("Content-Type", "application/json")],
        "ID-111@s.whatsapp.net ID-333@s.whatsapp.net "⟩ :=
  ⟨((upload_handlers_classify_alike sampleEnv "111" "a.png" "c" 7 pngData ["111"]
      [0, 0, 0, 0, 0]).2.1 "image/png").2 (Or.inr rfl),
    by decide, by decide, by decide, by decide, by decide, by rfl⟩

end WhatsappWs
